import Mathlib

/-!
Shallow embedding of the `data_gather` purchase-order analysis pipeline.

Source files embedded here:
- `src/analyzer/analyzer.py` : `_to_int`, `_parse_mmddyyyy`, `_po_state`,
  `analyze`, `_to_int_safe`, `build_vendor_inquiries`,
  `build_vendor_inquiries_by_vendor` (with its inner `_sort_key`).
- `src/po_email_agent_runner.py` / `src/cli.py` : `build_vendor_briefs`
  (the two copies are textually identical in the relevant lines; one
  embedding covers both).

Modelling conventions:
- Calendar dates are day numbers (`Int`, e.g. a Rata Die count); `timedelta
  (days = n)` becomes `+ n` and `(a - b).days` becomes `a - b`.  The textual
  date formats accepted by `_parse_mmddyyyy` are abstracted by `DateField`:
  a field either is absent/falsy, parses (in either accepted format, or is
  already a `date` object) to a day number, or fails to parse.
- Quantity fields reaching `_to_int` are modelled by `RawVal`: `None`, the
  empty string, a decimal numeral `±(intPart + frac)` with `0 ≤ frac < 1`
  (held as `fracNum / 10 ^ fracPow`), or an unparsable value.
  `int(float(x))` truncates toward zero, i.e. yields `±intPart`.  (The
  detour through binary floating point can shift the result only for
  numerals whose fractional digits bring the value within one float
  rounding error of the next integer; such inputs are outside this model.)
- Python dicts preserve insertion order; they are modelled as association
  lists updated in place.  Python `set` collection of PO ids is modelled as
  a duplicate-free insertion list (`setInsert`), later sorted.
- Python `list.sort` / `sorted` are stable; they are modelled by a stable
  insertion sort `sortS` (a stable sort's output is uniquely determined by
  the key order, so this is observationally the sort the source performs).
-/

/-- A raw quantity value as delivered by the source system to `_to_int`
(`analyzer.py` lines 8-15): `None`, `""`, a numeral `±(intPart +
fracNum / 10 ^ fracPow)` (with the fractional part `< 1`), or a value for
which `float(x)` raises. -/
inductive RawVal where
  | vnone : RawVal
  | vempty : RawVal
  | vnum (neg : Bool) (intPart : Nat) (fracNum : Nat) (fracPow : Nat) : RawVal
  | vbad : RawVal
deriving DecidableEq, Repr

/-- `_to_int` (`analyzer.py` 8-15): `None`/`""` ⇒ 0, parse failure ⇒ 0,
otherwise `int(float(x))`, which truncates toward zero: `±(ip + f)` with
`0 ≤ f < 1` yields `±ip`. -/
def to_int : RawVal → Int
  | .vnone => 0
  | .vempty => 0
  | .vbad => 0
  | .vnum neg ip _ _ => if neg then -(ip : Int) else (ip : Int)

/-- `_to_int_safe` (`analyzer.py` 223-229) — same body as `_to_int`. -/
def to_int_safe : RawVal → Int
  | .vnone => 0
  | .vempty => 0
  | .vbad => 0
  | .vnum neg ip _ _ => if neg then -(ip : Int) else (ip : Int)

/-- A raw date-valued field as seen by `_parse_mmddyyyy` (`analyzer.py`
18-31): falsy (`None`/`""`), a value that yields a calendar date (a `date`
object passed through, or a string in either accepted format), or a string
that fails both formats. -/
inductive DateField where
  | missing : DateField
  | parsed (d : Int) : DateField
  | malformed : DateField
deriving DecidableEq, Repr

/-- `_parse_mmddyyyy` (`analyzer.py` 18-31) at the `DateField` abstraction:
falsy input ⇒ `none`; parse failure ⇒ `none`; otherwise the date. -/
def parse_date_field : DateField → Option Int
  | .missing => none
  | .parsed d => some d
  | .malformed => none

/-- One raw PO line as consumed by `analyze`. -/
structure Line where
  line_no : Nat
  item : String
  qty_open : RawVal
  qty_ordered : RawVal
  qty_on_shipments : RawVal
  line_due_date : DateField
  promise_date : Option String
deriving DecidableEq, Repr

/-- One raw purchase order as consumed by `analyze`. -/
structure PO where
  po_id : Option Nat
  po_number : Option String
  po_date : Option String
  vendor : Option String
  vendor_email : Option String
  last_inq_sent_date : DateField
  lines : List Line
deriving DecidableEq, Repr

/-- Python truthiness of an optional string field (`if not vendor_email`):
absent and empty are falsy. -/
def truthy : Option String → Bool
  | none => false
  | some s => !(s == "")

/-- `_po_state` (`analyzer.py` 34-43). -/
def po_state (earliest_due today : Int) : String :=
  if earliest_due < today then "Past Due"
  else if earliest_due ≤ today + 14 then "Due"
  else "Normal"

/-- Open lines (`analyze`, line 82): `qty_open > 0`. -/
def openLines (lines : List Line) : List Line :=
  lines.filter (fun ln => decide (0 < to_int ln.qty_open))

/-- The skip condition of the actionable-line loop (`analyze`, line 91):
`qty_ordered > 0 and qty_on_shipments >= qty_ordered`. -/
def shippedInFull (ln : Line) : Bool :=
  decide (0 < to_int ln.qty_ordered) &&
    decide (to_int ln.qty_ordered ≤ to_int ln.qty_on_shipments)

/-- Actionable lines (`analyze`, lines 85-94): open and not fully shipped. -/
def actionableLines (lines : List Line) : List Line :=
  (openLines lines).filter (fun ln => !shippedInFull ln)

/-- The parsed due date of a line. -/
def lineDue (ln : Line) : Option Int := parse_date_field ln.line_due_date

/-- Due dates collected over a list of lines (`analyze`, lines 99-109). -/
def parsedDueDates (lines : List Line) : List Int := lines.filterMap lineDue

/-- Entry of `missing_due_date_lines` (`analyze`, lines 105-107). -/
structure MissingLine where
  line_no : Nat
  item : String
deriving DecidableEq, Repr

/-- Lines without a parseable due date (`analyze`, lines 100-107). -/
def missingDueLines (lines : List Line) : List MissingLine :=
  (lines.filter (fun ln => (lineDue ln).isNone)).map
    (fun ln => { line_no := ln.line_no, item := ln.item })

/-- The skip condition of the eligible-line loop (`analyze`, line 155):
`qty_on_shipments >= qty_ordered and qty_ordered > 0`. -/
def eligibleSkipShipped (ln : Line) : Bool :=
  decide (to_int ln.qty_ordered ≤ to_int ln.qty_on_shipments) &&
    decide (0 < to_int ln.qty_ordered)

/-- Eligible lines for inquiry (`analyze`, lines 146-159): have a due date,
not shipped in full, due within `today + 14`. -/
def eligibleLines (today : Int) (actionable : List Line) : List Line :=
  actionable.filter (fun ln =>
    match lineDue ln with
    | none => false
    | some due =>
      if eligibleSkipShipped ln then false else decide (due ≤ today + 14))

/-- The `days_since_last_inq` update (`analyze`, lines 164-168): only
assigned when `last_sent` parsed; a negative difference is replaced by
`None`; otherwise the previous loop iteration's value persists. -/
def daysSince (today : Int) (prevDays : Option Int) (lastSent : Option Int) :
    Option Int :=
  match lastSent with
  | some d => if today - d < 0 then none else some (today - d)
  | none => prevDays

/-- The cadence decision (`analyze`, lines 170-187), as the pair
`(should_inquire, cadence_reason)` assigned inside `if eligible_lines:`;
`none` means the branch assigns nothing (states other than `Due` /
`Past Due`), leaving the loop-carried variables unchanged. -/
def cadence (state : String) (lastSent : Option Int) (earliestDue today : Int) :
    Option (Bool × String) :=
  if state == "Due" then
    let dueWindowStart := earliestDue - 14
    match lastSent with
    | none => some (true, "due_first_touch")
    | some d =>
      if d < dueWindowStart then some (true, "due_first_touch")
      else some (false, "due_already_touched")
  else if state == "Past Due" then
    match lastSent with
    | none => some (true, "past_due_weekly")
    | some d =>
      if 7 ≤ today - d then some (true, "past_due_weekly")
      else some (false, "past_due_waiting_week")
  else none

/-- The per-PO record appended by `analyze` (`analyzer.py` 114-132 and
201-218). -/
structure AnalyzedPO where
  po_id : Option Nat
  po_number : Option String
  po_date : Option String
  last_inq_sent_date : DateField
  days_since_last_inquiry : Option Int
  vendor : Option String
  vendor_email : Option String
  state : String
  earliest_due_date : Option Int
  open_line_count : Nat
  missing_due_date_lines : List MissingLine
  recommended_action : String
  eligible_lines_for_inquiry : List Line
deriving DecidableEq, Repr

/-- Run statistics of `analyze` (`analyzer.py` 64-73). -/
structure Stats where
  as_of : Int
  po_count : Nat
  line_count : Nat
  normal_count : Nat
  due_count : Nat
  past_due_count : Nat
  needs_buyer_data_count : Nat
  eligible_for_inquiry_count : Nat
deriving DecidableEq, Repr

/-- The record built for one PO by the body of `analyze`'s loop, given the
incoming value of the loop-carried `days_since_last_inq` variable
(`prevDays`).  On the no-parseable-due-date early exit (lines 112-133) the
record is emitted before the variable is updated, so it carries
`prevDays`. -/
def analyzePO (today : Int) (prevDays : Option Int) (po : PO) : AnalyzedPO :=
  let lastSent := parse_date_field po.last_inq_sent_date
  let actionable := actionableLines po.lines
  let missing := missingDueLines actionable
  match parsedDueDates actionable with
  | [] =>
    { po_id := po.po_id
      po_number := po.po_number
      po_date := po.po_date
      last_inq_sent_date := po.last_inq_sent_date
      days_since_last_inquiry := prevDays
      vendor := po.vendor
      vendor_email := po.vendor_email
      state := "Unknown"
      earliest_due_date := none
      open_line_count := actionable.length
      missing_due_date_lines := missing
      recommended_action := "notify_buyer_missing_due_dates"
      eligible_lines_for_inquiry := [] }
  | d :: ds =>
    let earliest := ds.foldl min d
    let state := po_state earliest today
    let eligible := eligibleLines today actionable
    let days := daysSince today prevDays lastSent
    let action0 := "none"
    let action1 :=
      if missing.isEmpty then action0 else "notify_buyer_missing_due_dates"
    let action2 := if eligible.isEmpty then action1 else "inquire_vendor"
    { po_id := po.po_id
      po_number := po.po_number
      po_date := po.po_date
      last_inq_sent_date := po.last_inq_sent_date
      days_since_last_inquiry := days
      vendor := po.vendor
      vendor_email := po.vendor_email
      state := state
      earliest_due_date := some earliest
      open_line_count := actionable.length
      missing_due_date_lines := missing
      recommended_action := action2
      eligible_lines_for_inquiry := eligible }

/-- The loop state of `analyze`: the three variables declared before the
loop (`analyzer.py` 59-61) plus the output list and statistics. -/
structure LoopState where
  should_inquire : Bool
  cadence_reason : Option String
  days_since_last_inq : Option Int
  analyzed : List AnalyzedPO
  stats : Stats
deriving DecidableEq, Repr

/-- One iteration of `analyze`'s PO loop (`analyzer.py` 75-218). -/
def analyzeStep (today : Int) (s : LoopState) (po : PO) : LoopState :=
  let stats1 :=
    { s.stats with
      po_count := s.stats.po_count + 1
      line_count := s.stats.line_count + po.lines.length }
  let lastSent := parse_date_field po.last_inq_sent_date
  let actionable := actionableLines po.lines
  let missing := missingDueLines actionable
  let record := analyzePO today s.days_since_last_inq po
  match parsedDueDates actionable with
  | [] =>
    { s with
      analyzed := s.analyzed ++ [record]
      stats :=
        { stats1 with
          needs_buyer_data_count := stats1.needs_buyer_data_count + 1 } }
  | d :: ds =>
    let earliest := ds.foldl min d
    let state := po_state earliest today
    let stats2 :=
      if state == "Normal" then
        { stats1 with normal_count := stats1.normal_count + 1 }
      else if state == "Due" then
        { stats1 with due_count := stats1.due_count + 1 }
      else { stats1 with past_due_count := stats1.past_due_count + 1 }
    let eligible := eligibleLines today actionable
    let days := daysSince today s.days_since_last_inq lastSent
    let cad := if eligible.isEmpty then none
      else cadence state lastSent earliest today
    let stats3 :=
      if missing.isEmpty then stats2
      else
        { stats2 with
          needs_buyer_data_count := stats2.needs_buyer_data_count + 1 }
    let stats4 :=
      if eligible.isEmpty then stats3
      else
        { stats3 with
          eligible_for_inquiry_count := stats3.eligible_for_inquiry_count + 1 }
    { should_inquire := match cad with | some p => p.1 | none => s.should_inquire
      cadence_reason := match cad with | some p => some p.2 | none => s.cadence_reason
      days_since_last_inq := days
      analyzed := s.analyzed ++ [record]
      stats := stats4 }

/-- The state of `analyze` before the loop (`analyzer.py` 57-73). -/
def initState (today : Int) : LoopState :=
  { should_inquire := false
    cadence_reason := none
    days_since_last_inq := none
    analyzed := []
    stats :=
      { as_of := today, po_count := 0, line_count := 0, normal_count := 0
        due_count := 0, past_due_count := 0, needs_buyer_data_count := 0
        eligible_for_inquiry_count := 0 } }

/-- Return value of `analyze`. -/
structure AnalyzeOut where
  purchase_orders : List AnalyzedPO
  stats : Stats
deriving DecidableEq, Repr

/-- `analyze` (`analyzer.py` 46-220), with the as-of date explicit. -/
def analyze (purchase_orders : List PO) (today : Int) : AnalyzeOut :=
  let fin := purchase_orders.foldl (analyzeStep today) (initState today)
  { purchase_orders := fin.analyzed, stats := fin.stats }

/-! ### Stable sort and string comparison

Python `list.sort` / `sorted` are stable; a stable sort's output is
uniquely determined by the (total, transitive) key order, so the stable
insertion sort below is observationally the sort the source performs.
Python compares strings lexicographically by code point. -/

/-- Insert `x` into `l`, before the first element not below `x`; keeps a
stably sorted list stably sorted. -/
def insertS {α : Type} (le : α → α → Bool) (x : α) : List α → List α
  | [] => [x]
  | y :: ys => if le x y then x :: y :: ys else y :: insertS le x ys

/-- Stable insertion sort. -/
def sortS {α : Type} (le : α → α → Bool) : List α → List α
  | [] => []
  | x :: xs => insertS le x (sortS le xs)

/-- Lexicographic code-point comparison of character lists (Python string
`<=`). -/
def strLeAux : List Char → List Char → Bool
  | [], _ => true
  | _ :: _, [] => false
  | a :: as, b :: bs =>
    if a.toNat < b.toNat then true
    else if b.toNat < a.toNat then false
    else strLeAux as bs

/-- Python string comparison `a <= b` (lexicographic by code point). -/
def strLe (a b : String) : Bool := strLeAux a.data b.data

/-! ### `build_vendor_inquiries` (`analyzer.py` 232-352) -/

/-- Python `f"{x}"` for an optional string (`None` renders as `"None"`). -/
def pyStr : Option String → String
  | none => "None"
  | some s => s

/-- Rendering of an optional date (the source holds ISO strings; here the
day number is rendered). -/
def pyStrDate : Option Int → String
  | none => "None"
  | some d => toString d

/-- Rendering of a raw date field (the source interpolates the raw value). -/
def pyStrRawDate : DateField → String
  | .missing => "None"
  | .parsed d => toString d
  | .malformed => "invalid"

/-- A line summary built for an inquiry (`analyzer.py` 281-290 and
410-419). -/
structure LineSummary where
  line_no : Nat
  item : String
  promise_date : Option String
  due_date : DateField
  qty_open : Int
  qty_on_shipments : Int
deriving DecidableEq, Repr

/-- `analyzer.py` 274-290 / 404-419: one summary per eligible line. -/
def lineSummary (ln : Line) : LineSummary :=
  { line_no := ln.line_no
    item := ln.item
    promise_date := ln.promise_date
    due_date := ln.line_due_date
    qty_open := to_int_safe ln.qty_open
    qty_on_shipments := to_int_safe ln.qty_on_shipments }

/-- One per-PO inquiry (`analyzer.py` 337-349). -/
structure Inquiry where
  po_id : Option Nat
  po_number : Option String
  vendor : Option String
  vendor_email : Option String
  state : String
  earliest_due_date : Option Int
  subject : String
  body : String
  lines : List LineSummary
deriving DecidableEq, Repr

/-- Statistics of `build_vendor_inquiries` (`analyzer.py` 246-253). -/
structure InquiryStats where
  as_of : Int
  inquiry_count : Nat
  skipped_missing_vendor_email : Nat
  total_eligible_lines : Nat
  due_inquiries : Nat
  past_due_inquiries : Nat
deriving DecidableEq, Repr

/-- Line bullet of the single-PO inquiry body (`analyzer.py` 312-320). -/
def inquiryBullet (ls : LineSummary) : String :=
  "- Line " ++ toString ls.line_no ++ ": " ++ ls.item ++ " | " ++
    "Open Qty: " ++ toString ls.qty_open ++ " | " ++
    "Promise: " ++ pyStr ls.promise_date ++ " | " ++
    "Due: " ++ pyStrRawDate ls.due_date ++ " | " ++
    "On Shipments: " ++ toString ls.qty_on_shipments ++ "\n"

/-- One iteration of `build_vendor_inquiries`' loop (`analyzer.py`
255-349). -/
def inquiryStep (acc : List Inquiry × InquiryStats) (po : AnalyzedPO) :
    List Inquiry × InquiryStats :=
  if !(po.recommended_action == "inquire_vendor") then acc
  else if !truthy po.vendor_email then
    (acc.1,
      { acc.2 with
        skipped_missing_vendor_email := acc.2.skipped_missing_vendor_email + 1 })
  else
    let lineSummaries := po.eligible_lines_for_inquiry.map lineSummary
    let askTracking :=
      po.eligible_lines_for_inquiry.any
        (fun ln => decide (0 < to_int_safe ln.qty_on_shipments))
    let stats1 :=
      { acc.2 with
        total_eligible_lines := acc.2.total_eligible_lines + lineSummaries.length }
    let stats2 :=
      if po.state == "Past Due" then
        { stats1 with past_due_inquiries := stats1.past_due_inquiries + 1 }
      else { stats1 with due_inquiries := stats1.due_inquiries + 1 }
    let subject :=
      if po.state == "Past Due" then
        "PO " ++ pyStr po.po_number ++ " – Past Due – Status Update Requested"
      else
        "PO " ++ pyStr po.po_number ++ " – Upcoming Due Date – Status Confirmation"
    let opener :=
      if po.state == "Past Due" then
        "Hello " ++ pyStr po.vendor ++ ",\n\n" ++
          "Our records show PO " ++ pyStr po.po_number ++
          " is past due (earliest due date: " ++
          pyStrDate po.earliest_due_date ++
          "). Please provide an update on the open line(s) below:\n"
      else
        "Hello " ++ pyStr po.vendor ++ ",\n\n" ++
          "Our records show PO " ++ pyStr po.po_number ++
          " is coming due soon (earliest due date: " ++
          pyStrDate po.earliest_due_date ++
          "). Please confirm status on the open line(s) below:\n"
    let bullets := String.join (lineSummaries.map inquiryBullet)
    let ask :=
      if askTracking then
        "\nFor any items already on shipment, please share the latest ETA and tracking / shipment reference.\nFor any items not yet on shipment, please share the expected ship date.\n"
      else
        "\nPlease share the expected ship date (or confirm shipment is on schedule).\n"
    let close := "\nThank you,\nPurchasing\n"
    let body := opener ++ "\n" ++ bullets ++ ask ++ close
    (acc.1 ++
      [{ po_id := po.po_id
         po_number := po.po_number
         vendor := po.vendor
         vendor_email := po.vendor_email
         state := po.state
         earliest_due_date := po.earliest_due_date
         subject := subject
         body := body
         lines := lineSummaries }],
      stats2)

/-- Return value of `build_vendor_inquiries`. -/
structure InquiriesOut where
  inquiries : List Inquiry
  stats : InquiryStats
deriving DecidableEq, Repr

/-- `build_vendor_inquiries` (`analyzer.py` 232-352). -/
def build_vendor_inquiries (analyzed : List AnalyzedPO) (today : Int) :
    InquiriesOut :=
  let init : List Inquiry × InquiryStats :=
    ([],
      { as_of := today, inquiry_count := 0, skipped_missing_vendor_email := 0
        total_eligible_lines := 0, due_inquiries := 0, past_due_inquiries := 0 })
  let fin := analyzed.foldl inquiryStep init
  { inquiries := fin.1, stats := { fin.2 with inquiry_count := fin.1.length } }

/-! ### `build_vendor_inquiries_by_vendor` (`analyzer.py` 355-513) -/

/-- `po.get("vendor") or "(Vendor)"` (`analyzer.py` 388). -/
def vendorName : Option String → String
  | none => "(Vendor)"
  | some s => if s == "" then "(Vendor)" else s

/-- Per-PO payload collected in a vendor bucket (`analyzer.py` 421-431). -/
structure VendorPO where
  po_id : Option Nat
  po_number : Option String
  po_date : Option String
  state : String
  earliest_due_date : Option Int
  lines : List LineSummary
  any_on_shipments : Bool
deriving DecidableEq, Repr

/-- `analyzer.py` 401-431: the payload appended for one analyzed PO. -/
def vendorPayload (po : AnalyzedPO) : VendorPO :=
  { po_id := po.po_id
    po_number := po.po_number
    po_date := po.po_date
    state := po.state
    earliest_due_date := po.earliest_due_date
    lines := po.eligible_lines_for_inquiry.map lineSummary
    any_on_shipments :=
      po.eligible_lines_for_inquiry.any
        (fun ln => decide (0 < to_int_safe ln.qty_on_shipments)) }

/-- One vendor bucket (`analyzer.py` 394-399). -/
structure VendorBucket where
  vendor : String
  vendor_email : String
  pos : List VendorPO
deriving DecidableEq, Repr

/-- Insert-or-append into the `buckets` dict (`analyzer.py` 394-431):
creates the bucket on first sight of the email, then appends the payload. -/
def vInsert (e : String) (po : AnalyzedPO) :
    List (String × VendorBucket) → List (String × VendorBucket)
  | [] =>
    [(e, { vendor := vendorName po.vendor, vendor_email := e
           pos := [vendorPayload po] })]
  | (k, b) :: rest =>
    if k == e then (k, { b with pos := b.pos ++ [vendorPayload po] }) :: rest
    else (k, b) :: vInsert e po rest

/-- First loop of `build_vendor_inquiries_by_vendor` (`analyzer.py`
379-431): skip non-inquiry POs, count and skip POs without a vendor email,
bucket the rest; the second component counts the skips. -/
def vCollectStep (acc : List (String × VendorBucket) × Nat) (po : AnalyzedPO) :
    List (String × VendorBucket) × Nat :=
  if !(po.recommended_action == "inquire_vendor") then acc
  else if !truthy po.vendor_email then (acc.1, acc.2 + 1)
  else (vInsert (po.vendor_email.getD "") po acc.1, acc.2)

/-- `rank` of `_sort_key` (`analyzer.py` 443-451). -/
def stateRank (state : String) : Nat :=
  if state == "Past Due" then 0 else if state == "Due" then 1 else 2

/-- The `_sort_key` order (`analyzer.py` 443-454): rank, then earliest due
date, then PO number.  The source substitutes the ISO sentinel
`"9999-12-31"` for a missing date (the parser yields no later date), so a
missing date is modelled as the greatest element; `p.get("po_number") or
""` substitutes the empty string. -/
def sortKeyLE (p q : VendorPO) : Bool :=
  let rp := stateRank p.state
  let rq := stateRank q.state
  if rp < rq then true
  else if rq < rp then false
  else
    match p.earliest_due_date, q.earliest_due_date with
    | some a, some b =>
      if a < b then true
      else if b < a then false
      else strLe (p.po_number.getD "") (q.po_number.getD "")
    | some _, none => true
    | none, some _ => false
    | none, none => strLe (p.po_number.getD "") (q.po_number.getD "")

/-- One consolidated per-vendor inquiry (`analyzer.py` 500-510). -/
structure VendorInquiry where
  vendor : String
  vendor_email : String
  subject : String
  body : String
  po_ids : List Nat
  pos : List VendorPO
deriving DecidableEq, Repr

/-- Statistics of `build_vendor_inquiries_by_vendor` (`analyzer.py`
369-377). -/
structure VendorStats where
  as_of : Int
  vendor_inquiry_count : Nat
  skipped_missing_vendor_email : Nat
  total_pos_included : Nat
  total_lines_included : Nat
  due_pos : Nat
  past_due_pos : Nat
deriving DecidableEq, Repr

/-- Per-PO block of the consolidated body (`analyzer.py` 486-496). -/
def vendorPOBlock (p : VendorPO) : String :=
  pyStr p.po_number ++ " (PO Date: " ++ pyStr p.po_date ++ ") | State: " ++
    p.state ++ " | Earliest Due: " ++ pyStrDate p.earliest_due_date ++ "\n" ++
    String.join (p.lines.map (fun ln => inquiryBullet ln))

/-- Second loop of `build_vendor_inquiries_by_vendor` (`analyzer.py`
435-510): sort the bucket, count states, build subject and body, emit one
inquiry per vendor email. -/
def vendorFinalize (acc : List VendorInquiry × VendorStats)
    (kb : String × VendorBucket) : List VendorInquiry × VendorStats :=
  let b := kb.2
  let po_ids := sortS (fun a b => decide (a ≤ b))
    ((b.pos.filterMap (fun p => p.po_id)).dedup)
  let posSorted := sortS sortKeyLE b.pos
  let pastDueCount := (posSorted.filter (fun p => p.state == "Past Due")).length
  let dueCount := (posSorted.filter (fun p => p.state == "Due")).length
  let totalLines := (posSorted.map (fun p => p.lines.length)).sum
  let stats1 :=
    { acc.2 with
      total_pos_included := acc.2.total_pos_included + posSorted.length
      past_due_pos := acc.2.past_due_pos + pastDueCount
      due_pos := acc.2.due_pos + dueCount
      total_lines_included := acc.2.total_lines_included + totalLines }
  let subject :=
    if pastDueCount > 0 && dueCount > 0 then
      "PO Status Update Requested – " ++ toString pastDueCount ++
        " Past Due, " ++ toString dueCount ++ " Due"
    else if pastDueCount > 0 then
      "PO Status Update Requested – " ++ toString pastDueCount ++ " Past Due"
    else "PO Status Confirmation – " ++ toString dueCount ++ " Due Soon"
  let header :=
    "Hello " ++ b.vendor ++ ",\n\n" ++
      "Please provide a status update on the open line(s) for the purchase order(s) below.\n" ++
      "If items are on shipment, please share the latest ETA and tracking/shipment reference.\n" ++
      "If items are not yet on shipment, please share the expected ship date.\n\n"
  let body :=
    header ++ String.join (posSorted.map vendorPOBlock) ++
      "Thank you,\nPurchasing\n"
  (acc.1 ++
    [{ vendor := b.vendor
       vendor_email := b.vendor_email
       subject := subject
       body := body
       po_ids := po_ids
       pos := posSorted }],
    stats1)

/-- Return value of `build_vendor_inquiries_by_vendor`. -/
structure VendorOut where
  inquiries : List VendorInquiry
  stats : VendorStats
deriving DecidableEq, Repr

/-- `build_vendor_inquiries_by_vendor` (`analyzer.py` 355-513). -/
def build_vendor_inquiries_by_vendor (analyzed : List AnalyzedPO)
    (today : Int) : VendorOut :=
  let collected := analyzed.foldl vCollectStep ([], 0)
  let init : List VendorInquiry × VendorStats :=
    ([],
      { as_of := today, vendor_inquiry_count := 0
        skipped_missing_vendor_email := collected.2
        total_pos_included := 0, total_lines_included := 0
        due_pos := 0, past_due_pos := 0 })
  let fin := collected.1.foldl vendorFinalize init
  { inquiries := fin.1
    stats := { fin.2 with vendor_inquiry_count := fin.1.length } }

/-! ### `build_vendor_briefs` (`po_email_agent_runner.py` 247-323; the copy
in `cli.py` is identical in these lines) -/

/-- Per-PO payload of a brief (`po_email_agent_runner.py` 296-304).  The
analyzed records carry no `cadence_reason` key, so `po.get("cadence_reason")`
is always `None`. -/
structure BriefPO where
  po_number : Option String
  po_date : Option String
  state : String
  earliest_due_date : Option Int
  days_since_last_inquiry : Option Int
  cadence_reason : Option String
  lines : List Line
deriving DecidableEq, Repr

/-- `po_email_agent_runner.py` 292-304. -/
def briefPayload (maxLinesPerPO : Nat) (po : AnalyzedPO) : BriefPO :=
  { po_number := po.po_number
    po_date := po.po_date
    state := po.state
    earliest_due_date := po.earliest_due_date
    days_since_last_inquiry := po.days_since_last_inquiry
    cadence_reason := none
    lines := po.eligible_lines_for_inquiry.take maxLinesPerPO }

/-- Vendor-level summary counters (`po_email_agent_runner.py` 279,
282-288). -/
structure BriefSummary where
  due_pos : Nat
  past_due_pos : Nat
  unknown_pos : Nat
deriving DecidableEq, Repr

/-- A vendor bucket of `build_vendor_briefs` before cap application
(`po_email_agent_runner.py` 273-304): `po_ids` is a Python `set`, modelled
as a duplicate-free insertion list. -/
structure BriefBucket where
  vendor : Option String
  vendor_email : String
  po_ids : List (Option Nat)
  pos : List BriefPO
  summary : BriefSummary
deriving DecidableEq, Repr

/-- Python `set.add`. -/
def setInsert (xs : List (Option Nat)) (x : Option Nat) : List (Option Nat) :=
  if x ∈ xs then xs else xs ++ [x]

/-- The per-PO bucket mutations (`po_email_agent_runner.py` 282-304):
summary counter by state, `po_ids.add`, payload append. -/
def bucketAdd (maxLinesPerPO : Nat) (po : AnalyzedPO) (b : BriefBucket) :
    BriefBucket :=
  { b with
    summary :=
      if po.state == "Due" then
        { b.summary with due_pos := b.summary.due_pos + 1 }
      else if po.state == "Past Due" then
        { b.summary with past_due_pos := b.summary.past_due_pos + 1 }
      else { b.summary with unknown_pos := b.summary.unknown_pos + 1 }
    po_ids := setInsert b.po_ids po.po_id
    pos := b.pos ++ [briefPayload maxLinesPerPO po] }

/-- Fresh bucket for a newly seen vendor email
(`po_email_agent_runner.py` 273-279). -/
def initBucket (e : String) (po : AnalyzedPO) : BriefBucket :=
  { vendor := po.vendor, vendor_email := e, po_ids := [], pos := []
    summary := { due_pos := 0, past_due_pos := 0, unknown_pos := 0 } }

/-- Insert-or-update into the `by_vendor` dict. -/
def insertBriefPO (maxLinesPerPO : Nat) (e : String) (po : AnalyzedPO) :
    List (String × BriefBucket) → List (String × BriefBucket)
  | [] => [(e, bucketAdd maxLinesPerPO po (initBucket e po))]
  | (k, b) :: rest =>
    if k == e then (k, bucketAdd maxLinesPerPO po b) :: rest
    else (k, b) :: insertBriefPO maxLinesPerPO e po rest

/-- The inclusion filter of `build_vendor_briefs`
(`po_email_agent_runner.py` 265-271): `recommended_action ==
'inquire_vendor'` and a truthy vendor email.  A missing email is skipped
with a bare `continue` — no counter. -/
def briefQualifies (po : AnalyzedPO) : Bool :=
  po.recommended_action == "inquire_vendor" && truthy po.vendor_email

/-- One iteration of the grouping loop (`po_email_agent_runner.py`
265-304). -/
def briefStep (maxLinesPerPO : Nat) (m : List (String × BriefBucket))
    (po : AnalyzedPO) : List (String × BriefBucket) :=
  if briefQualifies po then
    insertBriefPO maxLinesPerPO (po.vendor_email.getD "") po m
  else m

/-- A finished vendor brief (`po_email_agent_runner.py` 309-314). -/
structure Brief where
  vendor : Option String
  vendor_email : String
  po_ids : List Nat
  pos : List BriefPO
  summary : BriefSummary
deriving DecidableEq, Repr

/-- Cap application (`po_email_agent_runner.py` 309-314): sort the non-None
ids; when the PO list exceeds the cap, truncate both lists to the cap. -/
def finalizeBucket (maxPosPerVendor : Nat) (b : BriefBucket) : Brief :=
  let ids := sortS (fun a b => decide (a ≤ b)) (b.po_ids.filterMap id)
  if maxPosPerVendor < b.pos.length then
    { vendor := b.vendor, vendor_email := b.vendor_email
      po_ids := ids.take maxPosPerVendor, pos := b.pos.take maxPosPerVendor
      summary := b.summary }
  else
    { vendor := b.vendor, vendor_email := b.vendor_email
      po_ids := ids, pos := b.pos, summary := b.summary }

/-- Statistics of `build_vendor_briefs` (`po_email_agent_runner.py`
317-321). -/
structure BriefStats where
  vendor_count : Nat
  total_pos : Nat
  capped_vendors : Nat
deriving DecidableEq, Repr

/-- Return value of `build_vendor_briefs`. -/
structure BriefsOut where
  briefs : List Brief
  stats : BriefStats
deriving DecidableEq, Repr

/-- `build_vendor_briefs` (`po_email_agent_runner.py` 247-323 and the
identical copy in `cli.py`). -/
def build_vendor_briefs (analyzed : List AnalyzedPO)
    (maxVendors maxPosPerVendor maxLinesPerPO : Nat) : BriefsOut :=
  let briefsAll :=
    ((analyzed.foldl (briefStep maxLinesPerPO) []).map
      (fun kb => finalizeBucket maxPosPerVendor kb.2))
  let briefs := briefsAll.take maxVendors
  { briefs := briefs
    stats :=
      { vendor_count := briefs.length
        total_pos := (briefs.map (fun b => b.pos.length)).sum
        capped_vendors :=
          if maxVendors < briefsAll.length then briefsAll.length - briefs.length
          else 0 } }

/-! ### Concrete fixtures (used by counterexamples and witnesses) -/

/-- A line with 5 ordered, 5 open, nothing shipped, and the given due
field. -/
def mkLine (d : DateField) : Line :=
  { line_no := 1, item := "itm", qty_open := .vnum false 5 0 0
    qty_ordered := .vnum false 5 0 0, qty_on_shipments := .vnone
    line_due_date := d, promise_date := none }

/-- A PO with the given last-inquiry field and lines. -/
def mkPO (last : DateField) (ls : List Line) : PO :=
  { po_id := some 1, po_number := some "PO1", po_date := none
    vendor := some "V", vendor_email := some "v@x"
    last_inq_sent_date := last, lines := ls }

/-- An analyzed record with `recommended_action = "inquire_vendor"` and the
given id, number, state, earliest due date and vendor email. -/
def mkAnalyzed (i : Option Nat) (n : String) (st : String) (ed : Option Int)
    (em : Option String) : AnalyzedPO :=
  { po_id := i, po_number := some n, po_date := none
    last_inq_sent_date := .missing, days_since_last_inquiry := none
    vendor := some "V", vendor_email := em, state := st
    earliest_due_date := ed, open_line_count := 1
    missing_due_date_lines := [], recommended_action := "inquire_vendor"
    eligible_lines_for_inquiry := [] }

/-- A line whose `qty_ordered` encodes the negative numeral −3.7 while 2
are open and 100 are on shipments. -/
def lnNeg : Line :=
  { line_no := 1, item := "n", qty_open := .vnum false 2 0 0
    qty_ordered := .vnum true 3 7 1, qty_on_shipments := .vnum false 100 0 0
    line_due_date := .parsed 0, promise_date := none }

/-- The P10-style input: three inquirable POs of one vendor, states
`[Past Due (due 601), Due (due 610), Past Due (due 520)]`. -/
def a8input : List AnalyzedPO :=
  [mkAnalyzed (some 21) "A" "Past Due" (some 601) (some "v@x"),
   mkAnalyzed (some 22) "B" "Due" (some 610) (some "v@x"),
   mkAnalyzed (some 23) "C" "Past Due" (some 520) (some "v@x")]

/-- A trivial vendor inquiry, used only as a `getD` default. -/
def defaultVendorInquiry : VendorInquiry :=
  { vendor := "", vendor_email := "", subject := "", body := ""
    po_ids := [], pos := [] }

/-- Three qualifying POs of one vendor whose insertion order (ids 3, 1, 2)
differs from the sorted id order. -/
def c3input : List AnalyzedPO :=
  [mkAnalyzed (some 3) "PO3" "Due" (some 3) (some "v@x"),
   mkAnalyzed (some 1) "PO1" "Due" (some 3) (some "v@x"),
   mkAnalyzed (some 2) "PO2" "Due" (some 3) (some "v@x")]

/-- A trivial brief, used only as a `getD` default. -/
def defaultBrief : Brief :=
  { vendor := none, vendor_email := "", po_ids := [], pos := []
    summary := { due_pos := 0, past_due_pos := 0, unknown_pos := 0 } }

/-! ### Proof-support characterizations (used only in proofs; their
agreement with the embedded functions is proven below) -/

/-- The value of the loop-carried `days_since_last_inq` after one iteration
of `analyze`'s loop: unchanged on the no-due-date early exit, otherwise
updated from the PO's own `last_inq_sent_date`. -/
def nextDays (today : Int) (d0 : Option Int) (po : PO) : Option Int :=
  match parsedDueDates (actionableLines po.lines) with
  | [] => d0
  | _ :: _ => daysSince today d0 (parse_date_field po.last_inq_sent_date)

/-- The records `analyze` appends for a list of POs, starting from a given
value of the loop-carried `days_since_last_inq`. -/
def recordsFrom (today : Int) : Option Int → List PO → List AnalyzedPO
  | _, [] => []
  | d0, po :: rest =>
    analyzePO today d0 po :: recordsFrom today (nextDays today d0 po) rest

/-- Association-list lookup in a `by_vendor` accumulator. -/
def lookupB (e : String) : List (String × BriefBucket) → Option BriefBucket
  | [] => none
  | (k, b) :: rest => if k == e then some b else lookupB e rest

/-- Folding a run of qualifying POs into one vendor's bucket (creating it
at the first PO when absent). -/
def bucketFold (maxLinesPerPO : Nat) (e : String) :
    Option BriefBucket → List AnalyzedPO → Option BriefBucket
  | ob, [] => ob
  | ob, po :: rest =>
    bucketFold maxLinesPerPO e
      (some (bucketAdd maxLinesPerPO po (ob.getD (initBucket e po)))) rest
/-! ### Supporting lemmas -/

theorem foldl_min_le_init (l : List Int) (a : Int) : l.foldl min a ≤ a := by
  induction l generalizing a with
  | nil => simp
  | cons x xs ih => exact le_trans (ih (min a x)) (min_le_left a x)

theorem foldl_min_le_mem (l : List Int) (a x : Int) (hx : x ∈ l) :
    l.foldl min a ≤ x := by
  induction l generalizing a with
  | nil => cases hx
  | cons y ys ih =>
    rcases List.mem_cons.mp hx with rfl | h
    · exact le_trans (foldl_min_le_init ys (min a x)) (min_le_right a x)
    · exact ih (min a y) h
  
theorem foldl_min_mem (l : List Int) (a : Int) : l.foldl min a ∈ a :: l := by
  induction l generalizing a with
  | nil => simp
  | cons x xs ih =>
    have h := ih (min a x)
    simp only [List.foldl_cons]
    rcases List.mem_cons.mp h with h1 | h1
    · rcases min_cases a x with ⟨he, _⟩ | ⟨he, _⟩
      · rw [h1, he]; exact List.mem_cons_self _ _
      · rw [h1, he]; exact List.mem_cons_of_mem _ (List.mem_cons_self _ _)
    · exact List.mem_cons_of_mem _ (List.mem_cons_of_mem _ h1)

theorem po_state_spec (e today : Int) :
    (po_state e today = "Past Due" ↔ e < today) ∧
    (po_state e today = "Due" ↔ today ≤ e ∧ e ≤ today + 14) ∧
    (po_state e today = "Normal" ↔ today + 14 < e) := by
  unfold po_state
  split_ifs with h1 h2 <;> refine ⟨?_, ?_, ?_⟩ <;> simp <;> omega

theorem analyzePO_main (po : PO) (today : Int) (prevDays : Option Int)
    (d : Int) (ds : List Int)
    (h : parsedDueDates (actionableLines po.lines) = d :: ds) :
    (analyzePO today prevDays po).earliest_due_date = some (ds.foldl min d) ∧
    (analyzePO today prevDays po).state = po_state (ds.foldl min d) today ∧
    (analyzePO today prevDays po).missing_due_date_lines =
      missingDueLines (actionableLines po.lines) ∧
    (analyzePO today prevDays po).eligible_lines_for_inquiry =
      eligibleLines today (actionableLines po.lines) ∧
    (analyzePO today prevDays po).days_since_last_inquiry =
      daysSince today prevDays (parse_date_field po.last_inq_sent_date) ∧
    (analyzePO today prevDays po).recommended_action =
      (if (eligibleLines today (actionableLines po.lines)).isEmpty then
        (if (missingDueLines (actionableLines po.lines)).isEmpty then "none"
         else "notify_buyer_missing_due_dates")
       else "inquire_vendor") := by
  simp only [analyzePO, h]
  exact ⟨trivial, trivial, trivial, trivial, trivial, trivial⟩
theorem analyzePO_empty (po : PO) (today : Int) (prevDays : Option Int)
    (h : parsedDueDates (actionableLines po.lines) = []) :
    (analyzePO today prevDays po).state = "Unknown" ∧
    (analyzePO today prevDays po).days_since_last_inquiry = prevDays ∧
    (analyzePO today prevDays po).recommended_action =
      "notify_buyer_missing_due_dates" ∧
    (analyzePO today prevDays po).eligible_lines_for_inquiry = [] ∧
    (analyzePO today prevDays po).earliest_due_date = none ∧
    (analyzePO today prevDays po).missing_due_date_lines =
      missingDueLines (actionableLines po.lines) := by
  simp only [analyzePO, h]
  exact ⟨trivial, trivial, trivial, trivial, trivial, trivial⟩

theorem analyzePO_ids (today : Int) (prevDays : Option Int) (po : PO) :
    (analyzePO today prevDays po).po_id = po.po_id ∧
    (analyzePO today prevDays po).po_number = po.po_number := by
  cases h : parsedDueDates (actionableLines po.lines) with
  | nil => simp only [analyzePO, h]; exact ⟨trivial, trivial⟩
  | cons d ds => simp only [analyzePO, h]; exact ⟨trivial, trivial⟩

theorem analyzeStep_analyzed (today : Int) (s : LoopState) (po : PO) :
    (analyzeStep today s po).analyzed =
      s.analyzed ++ [analyzePO today s.days_since_last_inq po] := by
  cases h : parsedDueDates (actionableLines po.lines) with
  | nil => simp only [analyzeStep, h]
  | cons d ds => simp only [analyzeStep, h]

theorem analyzeStep_days (today : Int) (s : LoopState) (po : PO) :
    (analyzeStep today s po).days_since_last_inq =
      nextDays today s.days_since_last_inq po := by
  cases h : parsedDueDates (actionableLines po.lines) with
  | nil => simp only [analyzeStep, nextDays, h]
  | cons d ds => simp only [analyzeStep, nextDays, h]

theorem analyzeStep_po_count (today : Int) (s : LoopState) (po : PO) :
    (analyzeStep today s po).stats.po_count = s.stats.po_count + 1 := by
  cases h : parsedDueDates (actionableLines po.lines) with
  | nil => simp only [analyzeStep, h]
  | cons d ds =>
    simp only [analyzeStep, h]
    split_ifs <;> rfl

theorem analyzeStep_eligible_count (today : Int) (s : LoopState) (po : PO) :
    (analyzeStep today s po).stats.eligible_for_inquiry_count =
      s.stats.eligible_for_inquiry_count +
        (if (analyzePO today s.days_since_last_inq po).recommended_action =
            "inquire_vendor" then 1 else 0) := by
  cases h : parsedDueDates (actionableLines po.lines) with
  | nil =>
    obtain ⟨-, -, ha, -, -, -⟩ := analyzePO_empty po today s.days_since_last_inq h
    rw [ha]
    simp only [analyzeStep, h]
    simp
  | cons d ds =>
    obtain ⟨-, -, -, -, -, ha⟩ := analyzePO_main po today s.days_since_last_inq d ds h
    rw [ha]
    simp only [analyzeStep, h]
    by_cases hel : (eligibleLines today (actionableLines po.lines)).isEmpty <;>
      by_cases hm : (missingDueLines (actionableLines po.lines)).isEmpty <;>
        simp only [hel, hm, if_true, if_false, Bool.false_eq_true, ite_true, ite_false] <;>
          split_ifs <;> simp_all

theorem analyzeStep_sets_cadence (today : Int) (s : LoopState) (po : PO)
    (d : Int) (ds : List Int) (b : Bool) (r : String)
    (h : parsedDueDates (actionableLines po.lines) = d :: ds)
    (he : eligibleLines today (actionableLines po.lines) ≠ [])
    (hc : cadence (po_state (ds.foldl min d) today)
        (parse_date_field po.last_inq_sent_date) (ds.foldl min d) today =
        some (b, r)) :
    (analyzeStep today s po).should_inquire = b ∧
    (analyzeStep today s po).cadence_reason = some r := by
  have hel : (eligibleLines today (actionableLines po.lines)).isEmpty = false := by
    cases hE : eligibleLines today (actionableLines po.lines) with
    | nil => exact absurd hE he
    | cons a l => rfl
  simp only [analyzeStep, h, hel, Bool.false_eq_true, if_false, ite_false, hc]
  exact ⟨trivial, trivial⟩
theorem cadence_due_eval (lastSent : Option Int) (e today : Int) :
    cadence "Due" lastSent e today =
      (match lastSent with
       | none => some (true, "due_first_touch")
       | some x =>
         if x < e - 14 then some (true, "due_first_touch")
         else some (false, "due_already_touched")) := by
  cases lastSent <;> simp [cadence]

theorem cadence_past_due_eval (lastSent : Option Int) (e today : Int) :
    cadence "Past Due" lastSent e today =
      (match lastSent with
       | none => some (true, "past_due_weekly")
       | some x =>
         if 7 ≤ today - x then some (true, "past_due_weekly")
         else some (false, "past_due_waiting_week")) := by
  cases lastSent <;> simp [cadence]

/-- C6: for a PO with at least one actionable line carrying a parseable due
date, with `earliest` the minimum of those dates and horizon 14 days, the
analyzed record has `earliest_due_date = earliest`, and its state is
`Past Due` iff `earliest < as-of`, `Due` iff `as-of ≤ earliest ≤ as-of +
14` (both boundary days included), and `Normal` iff `earliest > as-of +
14`. -/
theorem state_boundaries (po : PO) (today : Int) (prevDays : Option Int)
    (d : Int) (ds : List Int)
    (h : parsedDueDates (actionableLines po.lines) = d :: ds) :
    (analyzePO today prevDays po).earliest_due_date = some (ds.foldl min d) ∧
    ds.foldl min d ∈ d :: ds ∧
    (∀ x ∈ d :: ds, ds.foldl min d ≤ x) ∧
    ((analyzePO today prevDays po).state = "Past Due" ↔
      ds.foldl min d < today) ∧
    ((analyzePO today prevDays po).state = "Due" ↔
      today ≤ ds.foldl min d ∧ ds.foldl min d ≤ today + 14) ∧
    ((analyzePO today prevDays po).state = "Normal" ↔
      today + 14 < ds.foldl min d) := by
  obtain ⟨he, hs, -, -, -, -⟩ := analyzePO_main po today prevDays d ds h
  obtain ⟨p1, p2, p3⟩ := po_state_spec (ds.foldl min d) today
  rw [hs]
  refine ⟨he, foldl_min_mem ds d, ?_, p1, p2, p3⟩
  intro x hx
  rcases List.mem_cons.mp hx with rfl | hx
  · exact foldl_min_le_init ds x
  · exact foldl_min_le_mem ds d x hx

/-- Witness for `state_boundaries`: a PO with one actionable line due on
day 3, evaluated as of day 0. -/
theorem state_boundaries_witness :
    parsedDueDates (actionableLines (mkPO .missing [mkLine (.parsed 3)]).lines) =
      (3 : Int) :: [] ∧
    ((analyzePO 0 none (mkPO .missing [mkLine (.parsed 3)])).earliest_due_date =
      some (List.foldl min (3 : Int) []) ∧
    List.foldl min (3 : Int) [] ∈ (3 : Int) :: [] ∧
    (∀ x ∈ (3 : Int) :: [], List.foldl min (3 : Int) [] ≤ x) ∧
    ((analyzePO 0 none (mkPO .missing [mkLine (.parsed 3)])).state = "Past Due" ↔
      List.foldl min (3 : Int) [] < 0) ∧
    ((analyzePO 0 none (mkPO .missing [mkLine (.parsed 3)])).state = "Due" ↔
      0 ≤ List.foldl min (3 : Int) [] ∧ List.foldl min (3 : Int) [] ≤ 0 + 14) ∧
    ((analyzePO 0 none (mkPO .missing [mkLine (.parsed 3)])).state = "Normal" ↔
      0 + 14 < List.foldl min (3 : Int) [])) :=
  ⟨by decide, state_boundaries (mkPO .missing [mkLine (.parsed 3)]) 0 none 3 []
    (by decide)⟩
/-- C7: for a PO with at least one parseable due date among actionable
lines, `recommended_action` is `inquire_vendor` iff some line is eligible
for inquiry (overriding the missing-due-date flag), is
`notify_buyer_missing_due_dates` iff no line is eligible and some
actionable line lacks a due date, and is `none` iff neither holds; the
missing-date lines are reported in `missing_due_date_lines` in every
case. -/
theorem action_precedence (po : PO) (today : Int) (prevDays : Option Int)
    (d : Int) (ds : List Int)
    (h : parsedDueDates (actionableLines po.lines) = d :: ds) :
    ((analyzePO today prevDays po).recommended_action = "inquire_vendor" ↔
      eligibleLines today (actionableLines po.lines) ≠ []) ∧
    ((analyzePO today prevDays po).recommended_action =
        "notify_buyer_missing_due_dates" ↔
      (eligibleLines today (actionableLines po.lines) = [] ∧
        missingDueLines (actionableLines po.lines) ≠ [])) ∧
    ((analyzePO today prevDays po).recommended_action = "none" ↔
      (eligibleLines today (actionableLines po.lines) = [] ∧
        missingDueLines (actionableLines po.lines) = [])) ∧
    (analyzePO today prevDays po).missing_due_date_lines =
      missingDueLines (actionableLines po.lines) := by
  obtain ⟨-, -, hm, -, -, ha⟩ := analyzePO_main po today prevDays d ds h
  rw [ha]
  refine ⟨?_, ?_, ?_, hm⟩ <;>
    by_cases hel : eligibleLines today (actionableLines po.lines) = [] <;>
      by_cases hmi : missingDueLines (actionableLines po.lines) = [] <;>
        simp [hel, hmi]

/-- Witness for `action_precedence`: a PO with one actionable line missing
its due date and one actionable line due on day 1 (as of day 0); the
eligible line wins, the missing line is still reported. -/
theorem action_precedence_witness :
    parsedDueDates (actionableLines
      (mkPO .missing [mkLine .malformed, mkLine (.parsed 1)]).lines) =
      (1 : Int) :: [] ∧
    (((analyzePO 0 none (mkPO .missing [mkLine .malformed, mkLine (.parsed 1)])).recommended_action = "inquire_vendor" ↔
      eligibleLines 0 (actionableLines
        (mkPO .missing [mkLine .malformed, mkLine (.parsed 1)]).lines) ≠ []) ∧
    ((analyzePO 0 none (mkPO .missing [mkLine .malformed, mkLine (.parsed 1)])).recommended_action = "notify_buyer_missing_due_dates" ↔
      (eligibleLines 0 (actionableLines
        (mkPO .missing [mkLine .malformed, mkLine (.parsed 1)]).lines) = [] ∧
       missingDueLines (actionableLines
        (mkPO .missing [mkLine .malformed, mkLine (.parsed 1)]).lines) ≠ [])) ∧
    ((analyzePO 0 none (mkPO .missing [mkLine .malformed, mkLine (.parsed 1)])).recommended_action = "none" ↔
      (eligibleLines 0 (actionableLines
        (mkPO .missing [mkLine .malformed, mkLine (.parsed 1)]).lines) = [] ∧
       missingDueLines (actionableLines
        (mkPO .missing [mkLine .malformed, mkLine (.parsed 1)]).lines) = [])) ∧
    (analyzePO 0 none (mkPO .missing [mkLine .malformed, mkLine (.parsed 1)])).missing_due_date_lines =
      missingDueLines (actionableLines
        (mkPO .missing [mkLine .malformed, mkLine (.parsed 1)]).lines)) :=
  ⟨by decide,
    action_precedence (mkPO .missing [mkLine .malformed, mkLine (.parsed 1)])
      0 none 1 [] (by decide)⟩
/-- C5: for a PO with eligible lines and a last-sent date not after the
as-of date, the cadence decides send iff (state `Due`) no prior inquiry
exists or it predates the due window `earliest − 14` (reason
`due_first_touch`, else `due_already_touched`), and iff (state `Past Due`)
no prior inquiry exists or it is at least 7 days old (reason
`past_due_weekly`, else `past_due_waiting_week`). -/
theorem cadence_policy (po : PO) (today : Int) (s : LoopState)
    (d : Int) (ds : List Int)
    (h : parsedDueDates (actionableLines po.lines) = d :: ds)
    (he : eligibleLines today (actionableLines po.lines) ≠ [])
    (hpast : ∀ x, parse_date_field po.last_inq_sent_date = some x → x ≤ today) :
    (po_state (ds.foldl min d) today = "Due" →
      (((analyzeStep today s po).should_inquire = true ∧
        (analyzeStep today s po).cadence_reason = some "due_first_touch") ↔
        (parse_date_field po.last_inq_sent_date = none ∨
         ∃ x, parse_date_field po.last_inq_sent_date = some x ∧
           x < ds.foldl min d - 14)) ∧
      (((analyzeStep today s po).should_inquire = false ∧
        (analyzeStep today s po).cadence_reason = some "due_already_touched") ↔
        ∃ x, parse_date_field po.last_inq_sent_date = some x ∧
          ¬ x < ds.foldl min d - 14)) ∧
    (po_state (ds.foldl min d) today = "Past Due" →
      (((analyzeStep today s po).should_inquire = true ∧
        (analyzeStep today s po).cadence_reason = some "past_due_weekly") ↔
        (parse_date_field po.last_inq_sent_date = none ∨
         ∃ x, parse_date_field po.last_inq_sent_date = some x ∧
           7 ≤ today - x)) ∧
      (((analyzeStep today s po).should_inquire = false ∧
        (analyzeStep today s po).cadence_reason = some "past_due_waiting_week") ↔
        ∃ x, parse_date_field po.last_inq_sent_date = some x ∧
          today - x < 7)) := by
  constructor
  · intro hD
    cases hls : parse_date_field po.last_inq_sent_date with
    | none =>
      obtain ⟨h1, h2⟩ := analyzeStep_sets_cadence today s po d ds true
        "due_first_touch" h he (by rw [hls, hD]; simp [cadence])
      constructor <;> simp [h1, h2, hls]
    | some x =>
      by_cases hx : x < ds.foldl min d - 14
      · obtain ⟨h1, h2⟩ := analyzeStep_sets_cadence today s po d ds true
          "due_first_touch" h he (by rw [hls, hD]; simp [cadence, hx])
        constructor <;> simp [h1, h2, hls, hx] <;> omega
      · obtain ⟨h1, h2⟩ := analyzeStep_sets_cadence today s po d ds false
          "due_already_touched" h he (by rw [hls, hD]; simp [cadence, hx])
        constructor <;> simp [h1, h2, hls, hx] <;> omega
  · intro hP
    cases hls : parse_date_field po.last_inq_sent_date with
    | none =>
      obtain ⟨h1, h2⟩ := analyzeStep_sets_cadence today s po d ds true
        "past_due_weekly" h he (by rw [hls, hP]; simp [cadence])
      constructor <;> simp [h1, h2, hls]
    | some x =>
      by_cases hx : 7 ≤ today - x
      · obtain ⟨h1, h2⟩ := analyzeStep_sets_cadence today s po d ds true
          "past_due_weekly" h he (by rw [hls, hP]; simp [cadence, hx])
        constructor <;> simp [h1, h2, hls, hx] <;> omega
      · obtain ⟨h1, h2⟩ := analyzeStep_sets_cadence today s po d ds false
          "past_due_waiting_week" h he (by rw [hls, hP]; simp [cadence, hx])
        constructor <;> simp [h1, h2, hls, hx] <;> omega

/-- Witness for `cadence_policy`: a PO due day 5 as of day 0 (state `Due`)
whose last inquiry was on day −20, i.e. before the due-window start −9. -/
theorem cadence_policy_witness :
    parsedDueDates (actionableLines
      (mkPO (.parsed (-20)) [mkLine (.parsed 5)]).lines) = (5 : Int) :: [] ∧
    eligibleLines 0 (actionableLines
      (mkPO (.parsed (-20)) [mkLine (.parsed 5)]).lines) ≠ [] ∧
    ((po_state (List.foldl min (5 : Int) []) 0 = "Due" →
      (((analyzeStep 0 (initState 0) (mkPO (.parsed (-20)) [mkLine (.parsed 5)])).should_inquire = true ∧
        (analyzeStep 0 (initState 0) (mkPO (.parsed (-20)) [mkLine (.parsed 5)])).cadence_reason = some "due_first_touch") ↔
        (parse_date_field (mkPO (.parsed (-20)) [mkLine (.parsed 5)]).last_inq_sent_date = none ∨
         ∃ x, parse_date_field (mkPO (.parsed (-20)) [mkLine (.parsed 5)]).last_inq_sent_date = some x ∧
           x < List.foldl min (5 : Int) [] - 14)) ∧
      (((analyzeStep 0 (initState 0) (mkPO (.parsed (-20)) [mkLine (.parsed 5)])).should_inquire = false ∧
        (analyzeStep 0 (initState 0) (mkPO (.parsed (-20)) [mkLine (.parsed 5)])).cadence_reason = some "due_already_touched") ↔
        ∃ x, parse_date_field (mkPO (.parsed (-20)) [mkLine (.parsed 5)]).last_inq_sent_date = some x ∧
          ¬ x < List.foldl min (5 : Int) [] - 14)) ∧
    (po_state (List.foldl min (5 : Int) []) 0 = "Past Due" →
      (((analyzeStep 0 (initState 0) (mkPO (.parsed (-20)) [mkLine (.parsed 5)])).should_inquire = true ∧
        (analyzeStep 0 (initState 0) (mkPO (.parsed (-20)) [mkLine (.parsed 5)])).cadence_reason = some "past_due_weekly") ↔
        (parse_date_field (mkPO (.parsed (-20)) [mkLine (.parsed 5)]).last_inq_sent_date = none ∨
         ∃ x, parse_date_field (mkPO (.parsed (-20)) [mkLine (.parsed 5)]).last_inq_sent_date = some x ∧
           7 ≤ 0 - x)) ∧
      (((analyzeStep 0 (initState 0) (mkPO (.parsed (-20)) [mkLine (.parsed 5)])).should_inquire = false ∧
        (analyzeStep 0 (initState 0) (mkPO (.parsed (-20)) [mkLine (.parsed 5)])).cadence_reason = some "past_due_waiting_week") ↔
        ∃ x, parse_date_field (mkPO (.parsed (-20)) [mkLine (.parsed 5)]).last_inq_sent_date = some x ∧
          0 - x < 7))) :=
  ⟨by decide, by decide,
    cadence_policy (mkPO (.parsed (-20)) [mkLine (.parsed 5)]) 0 (initState 0)
      5 [] (by decide) (by decide)
      (by intro x hx; simp [mkPO, parse_date_field] at hx; omega)⟩
/-- C1 counterexample: as of day 0, a PO with an eligible line due day 5
(state `Due`) and `last_inq_sent_date` on day 1 (strictly after the as-of
date) gets `days_since_last_inquiry = None`, but the cadence outcome is
suppress with reason `due_already_touched` — not send with
`due_first_touch` as the claim states; likewise a PO due day −2 (state
`Past Due`) gets suppress with `past_due_waiting_week`, not send with
`past_due_weekly`. -/
theorem future_last_sent_counterexample :
    (analyzePO 0 none (mkPO (.parsed 1) [mkLine (.parsed 5)])).state = "Due" ∧
    (analyzePO 0 none (mkPO (.parsed 1) [mkLine (.parsed 5)])).days_since_last_inquiry = none ∧
    (analyzePO 0 none (mkPO (.parsed 1) [mkLine (.parsed 5)])).eligible_lines_for_inquiry ≠ [] ∧
    (analyzeStep 0 (initState 0) (mkPO (.parsed 1) [mkLine (.parsed 5)])).should_inquire = false ∧
    (analyzeStep 0 (initState 0) (mkPO (.parsed 1) [mkLine (.parsed 5)])).cadence_reason = some "due_already_touched" ∧
    (analyzeStep 0 (initState 0) (mkPO (.parsed 1) [mkLine (.parsed 5)])).cadence_reason ≠ some "due_first_touch" ∧
    (analyzePO 0 none (mkPO (.parsed 1) [mkLine (.parsed (-2))])).state = "Past Due" ∧
    (analyzePO 0 none (mkPO (.parsed 1) [mkLine (.parsed (-2))])).days_since_last_inquiry = none ∧
    (analyzeStep 0 (initState 0) (mkPO (.parsed 1) [mkLine (.parsed (-2))])).should_inquire = false ∧
    (analyzeStep 0 (initState 0) (mkPO (.parsed 1) [mkLine (.parsed (-2))])).cadence_reason = some "past_due_waiting_week" ∧
    (analyzeStep 0 (initState 0) (mkPO (.parsed 1) [mkLine (.parsed (-2))])).cadence_reason ≠ some "past_due_weekly" := by
  decide

/-- C1 (amended): a future-dated `last_inq_sent_date` yields
`days_since_last_inquiry = None` (never negative), but the cadence does
NOT treat it as "no prior inquiry": for state `Due` it suppresses with
`due_already_touched`, for state `Past Due` with `past_due_waiting_week`. -/
theorem future_last_sent_amended (po : PO) (today : Int) (s : LoopState)
    (d : Int) (ds : List Int) (f : Int)
    (h : parsedDueDates (actionableLines po.lines) = d :: ds)
    (he : eligibleLines today (actionableLines po.lines) ≠ [])
    (hf : parse_date_field po.last_inq_sent_date = some f)
    (hfut : today < f) :
    (analyzePO today s.days_since_last_inq po).days_since_last_inquiry =
      none ∧
    (po_state (ds.foldl min d) today = "Due" →
      (analyzeStep today s po).should_inquire = false ∧
      (analyzeStep today s po).cadence_reason = some "due_already_touched") ∧
    (po_state (ds.foldl min d) today = "Past Due" →
      (analyzeStep today s po).should_inquire = false ∧
      (analyzeStep today s po).cadence_reason = some "past_due_waiting_week") := by
  obtain ⟨-, -, -, -, hd, -⟩ :=
    analyzePO_main po today s.days_since_last_inq d ds h
  refine ⟨?_, ?_, ?_⟩
  · rw [hd, hf]
    simp only [daysSince]
    rw [if_pos (by omega)]
  · intro hD
    have hwin : ¬ f < ds.foldl min d - 14 := by
      obtain ⟨-, hDue, -⟩ := po_state_spec (ds.foldl min d) today
      obtain ⟨-, hub⟩ := hDue.mp hD
      omega
    exact analyzeStep_sets_cadence today s po d ds false "due_already_touched"
      h he (by rw [hf, hD]; simp [cadence, hwin])
  · intro hP
    have hwk : ¬ 7 ≤ today - f := by omega
    exact analyzeStep_sets_cadence today s po d ds false "past_due_waiting_week"
      h he (by rw [hf, hP]; simp [cadence, hwk])

/-- Witness for `future_last_sent_amended`: the `Due`-state instance of the
counterexample input. -/
theorem future_last_sent_amended_witness :
    parsedDueDates (actionableLines
      (mkPO (.parsed 1) [mkLine (.parsed 5)]).lines) = (5 : Int) :: [] ∧
    eligibleLines 0 (actionableLines
      (mkPO (.parsed 1) [mkLine (.parsed 5)]).lines) ≠ [] ∧
    parse_date_field (mkPO (.parsed 1) [mkLine (.parsed 5)]).last_inq_sent_date = some 1 ∧
    (0 : Int) < 1 ∧
    ((analyzePO 0 (initState 0).days_since_last_inq
        (mkPO (.parsed 1) [mkLine (.parsed 5)])).days_since_last_inquiry = none ∧
    (po_state (List.foldl min (5 : Int) []) 0 = "Due" →
      (analyzeStep 0 (initState 0) (mkPO (.parsed 1) [mkLine (.parsed 5)])).should_inquire = false ∧
      (analyzeStep 0 (initState 0) (mkPO (.parsed 1) [mkLine (.parsed 5)])).cadence_reason = some "due_already_touched") ∧
    (po_state (List.foldl min (5 : Int) []) 0 = "Past Due" →
      (analyzeStep 0 (initState 0) (mkPO (.parsed 1) [mkLine (.parsed 5)])).should_inquire = false ∧
      (analyzeStep 0 (initState 0) (mkPO (.parsed 1) [mkLine (.parsed 5)])).cadence_reason = some "past_due_waiting_week")) :=
  ⟨by decide, by decide, by decide, by decide,
    future_last_sent_amended (mkPO (.parsed 1) [mkLine (.parsed 5)]) 0
      (initState 0) 5 [] 1 (by decide) (by decide) (by decide) (by decide)⟩
/-- C2 (code bug): the analyzed record is NOT a pure function of the PO's
own lines and the as-of date.  With PO `A` (last inquiry day −10, line due
day 0) followed by PO `B` (no last-inquiry date, one actionable line with
an unparseable due date), `B`'s record reports
`days_since_last_inquiry = 10` — the value computed for `A` — whereas
analyzing `B` alone reports `None`: the loop-carried variable leaks across
iterations exactly as §9 of the spec warns. -/
theorem record_purity_leak :
    ((analyze [mkPO (.parsed (-10)) [mkLine (.parsed 0)],
               mkPO .missing [mkLine .malformed]] 0).purchase_orders.map
      (fun r => r.days_since_last_inquiry)) = [some 10, some 10] ∧
    ((analyze [mkPO .missing [mkLine .malformed]] 0).purchase_orders.map
      (fun r => r.days_since_last_inquiry)) = [none] := by
  decide

/-- C9: `_to_int` truncates a negative numeral toward zero and preserves
its sign rather than clamping to 0: a string encoding `−(ip + f)` with
`0 ≤ f < 1` is coerced to `−ip` (e.g. `"-5"` to −5 and `"-3.7"` to −3,
both negative), the result is never positive, so the fully-shipped skip
conditions are false and an open line with such a `qty_ordered` is kept
actionable, regardless of `qty_on_shipments`. -/
theorem negative_qty_truncates (ln : Line) (ip fn fp : Nat)
    (h : ln.qty_ordered = RawVal.vnum true ip fn fp) :
    to_int ln.qty_ordered = -(ip : Int) ∧
    to_int ln.qty_ordered ≤ 0 ∧
    (0 < ip → to_int ln.qty_ordered < 0) ∧
    shippedInFull ln = false ∧
    eligibleSkipShipped ln = false ∧
    (∀ lines : List Line,
      ln ∈ openLines lines → ln ∈ actionableLines lines) := by
  have hv : to_int ln.qty_ordered = -(ip : Int) := by rw [h]; simp [to_int]
  have hle : to_int ln.qty_ordered ≤ 0 := by rw [hv]; omega
  have hsf : shippedInFull ln = false := by
    simp only [shippedInFull, Bool.and_eq_false_iff, decide_eq_false_iff_not]
    left
    omega
  refine ⟨hv, hle, fun hip => by rw [hv]; omega, hsf, ?_, ?_⟩
  · simp only [eligibleSkipShipped, Bool.and_eq_false_iff,
      decide_eq_false_iff_not]
    right
    omega
  · intro lines hmem
    simp only [actionableLines, List.mem_filter]
    exact ⟨hmem, by rw [hsf]; rfl⟩

/-- Witness for `negative_qty_truncates`: the numeral `"-3.7"`
(`ip = 3`, fraction 7/10) on a line with 2 open and 100 on shipments. -/
theorem negative_qty_truncates_witness :
    lnNeg.qty_ordered = RawVal.vnum true 3 7 1 ∧
    (to_int lnNeg.qty_ordered = -(3 : Int) ∧
     to_int lnNeg.qty_ordered ≤ 0 ∧
     (0 < 3 → to_int lnNeg.qty_ordered < 0) ∧
     shippedInFull lnNeg = false ∧
     eligibleSkipShipped lnNeg = false ∧
     (∀ lines : List Line,
       lnNeg ∈ openLines lines → lnNeg ∈ actionableLines lines)) :=
  ⟨rfl, negative_qty_truncates lnNeg 3 7 1 rfl⟩
theorem foldl_analyzed (today : Int) (pos : List PO) (s : LoopState) :
    (pos.foldl (analyzeStep today) s).analyzed =
      s.analyzed ++ recordsFrom today s.days_since_last_inq pos := by
  induction pos generalizing s with
  | nil => simp [recordsFrom]
  | cons po rest ih =>
    simp only [List.foldl_cons, recordsFrom]
    rw [ih, analyzeStep_analyzed, analyzeStep_days]
    simp

theorem foldl_po_count (today : Int) (pos : List PO) (s : LoopState) :
    (pos.foldl (analyzeStep today) s).stats.po_count =
      s.stats.po_count + pos.length := by
  induction pos generalizing s with
  | nil => simp
  | cons po rest ih =>
    simp only [List.foldl_cons, List.length_cons]
    rw [ih, analyzeStep_po_count]
    omega

theorem recordsFrom_length (today : Int) (d0 : Option Int) (pos : List PO) :
    (recordsFrom today d0 pos).length = pos.length := by
  induction pos generalizing d0 with
  | nil => rfl
  | cons po rest ih => simp [recordsFrom, ih]

theorem recordsFrom_po_id (today : Int) (d0 : Option Int) (pos : List PO) :
    (recordsFrom today d0 pos).map (fun r => r.po_id) =
      pos.map (fun p => p.po_id) := by
  induction pos generalizing d0 with
  | nil => rfl
  | cons po rest ih =>
    simp only [recordsFrom, List.map_cons, ih]
    rw [(analyzePO_ids today d0 po).1]

theorem recordsFrom_po_number (today : Int) (d0 : Option Int) (pos : List PO) :
    (recordsFrom today d0 pos).map (fun r => r.po_number) =
      pos.map (fun p => p.po_number) := by
  induction pos generalizing d0 with
  | nil => rfl
  | cons po rest ih =>
    simp only [recordsFrom, List.map_cons, ih]
    rw [(analyzePO_ids today d0 po).2]

theorem foldl_eligible_count (today : Int) (pos : List PO) (s : LoopState) :
    (pos.foldl (analyzeStep today) s).stats.eligible_for_inquiry_count =
      s.stats.eligible_for_inquiry_count +
        ((recordsFrom today s.days_since_last_inq pos).filter
          (fun r => r.recommended_action == "inquire_vendor")).length := by
  induction pos generalizing s with
  | nil => simp [recordsFrom]
  | cons po rest ih =>
    simp only [List.foldl_cons, recordsFrom]
    rw [ih, analyzeStep_days, analyzeStep_eligible_count]
    by_cases ha : (analyzePO today s.days_since_last_inq po).recommended_action
        = "inquire_vendor" <;> simp [ha] <;> omega

/-- C10: `analyze` returns exactly one record per input PO, in input order
(same id and number sequences), `po_count` equals the number of input POs,
and `eligible_for_inquiry_count` equals the number of returned records
recommending `inquire_vendor`. -/
theorem one_record_per_po (pos : List PO) (today : Int) :
    (analyze pos today).purchase_orders.length = pos.length ∧
    (analyze pos today).purchase_orders.map (fun r => r.po_id) =
      pos.map (fun p => p.po_id) ∧
    (analyze pos today).purchase_orders.map (fun r => r.po_number) =
      pos.map (fun p => p.po_number) ∧
    (analyze pos today).stats.po_count = pos.length ∧
    (analyze pos today).stats.eligible_for_inquiry_count =
      ((analyze pos today).purchase_orders.filter
        (fun r => r.recommended_action == "inquire_vendor")).length := by
  have hpo : (analyze pos today).purchase_orders =
      recordsFrom today none pos := by
    simp only [analyze]
    rw [foldl_analyzed]
    rfl
  refine ⟨?_, ?_, ?_, ?_, ?_⟩
  · rw [hpo, recordsFrom_length]
  · rw [hpo, recordsFrom_po_id]
  · rw [hpo, recordsFrom_po_number]
  · simp only [analyze]
    rw [foldl_po_count]
    simp [initState]
  · rw [hpo]
    simp only [analyze]
    rw [foldl_eligible_count]
    simp [initState]
theorem inquiryStep_not_inquire (acc : List Inquiry × InquiryStats)
    (po : AnalyzedPO)
    (ha : (po.recommended_action == "inquire_vendor") = false) :
    inquiryStep acc po = acc := by
  simp [inquiryStep, ha]

theorem inquiryStep_no_email (acc : List Inquiry × InquiryStats)
    (po : AnalyzedPO)
    (ha : (po.recommended_action == "inquire_vendor") = true)
    (ht : truthy po.vendor_email = false) :
    (inquiryStep acc po).1 = acc.1 ∧
    (inquiryStep acc po).2.skipped_missing_vendor_email =
      acc.2.skipped_missing_vendor_email + 1 := by
  simp [inquiryStep, ha, ht]

theorem inquiryStep_keep (acc : List Inquiry × InquiryStats)
    (po : AnalyzedPO)
    (ha : (po.recommended_action == "inquire_vendor") = true)
    (ht : truthy po.vendor_email = true) :
    (inquiryStep acc po).1.length = acc.1.length + 1 ∧
    (inquiryStep acc po).2.skipped_missing_vendor_email =
      acc.2.skipped_missing_vendor_email := by
  simp only [inquiryStep, ha, ht, Bool.not_true, Bool.false_eq_true, if_false,
    ite_false]
  constructor
  · simp
  · split_ifs <;> rfl

theorem foldl_inquiry_counts (analyzed : List AnalyzedPO)
    (acc : List Inquiry × InquiryStats) :
    (analyzed.foldl inquiryStep acc).2.skipped_missing_vendor_email =
      acc.2.skipped_missing_vendor_email +
        (analyzed.filter (fun p =>
          p.recommended_action == "inquire_vendor" &&
            !truthy p.vendor_email)).length ∧
    (analyzed.foldl inquiryStep acc).1.length =
      acc.1.length +
        (analyzed.filter (fun p =>
          p.recommended_action == "inquire_vendor" &&
            truthy p.vendor_email)).length := by
  induction analyzed generalizing acc with
  | nil => simp
  | cons po rest ih =>
    simp only [List.foldl_cons, List.filter_cons]
    by_cases ha : (po.recommended_action == "inquire_vendor") = true
    · obtain ⟨ih1, ih2⟩ := ih (inquiryStep acc po)
      by_cases ht : truthy po.vendor_email = true
      · obtain ⟨k1, k2⟩ := inquiryStep_keep acc po ha ht
        rw [ih1, ih2, k1, k2]
        simp [ha, ht]
        omega
      · have ht' : truthy po.vendor_email = false := by
          cases hT : truthy po.vendor_email
          · rfl
          · exact absurd hT ht
        obtain ⟨k1, k2⟩ := inquiryStep_no_email acc po ha ht'
        rw [ih1, ih2, k1, k2]
        simp [ha, ht']
        omega
    · have ha' : (po.recommended_action == "inquire_vendor") = false := by
        cases hA : (po.recommended_action == "inquire_vendor")
        · rfl
        · exact absurd hA ha
      rw [inquiryStep_not_inquire acc po ha']
      obtain ⟨j1, j2⟩ := ih acc
      rw [j1, j2]
      simp [ha']

/-- C4 (amended): in `build_vendor_inquiries` every analyzed PO recommended
for inquiry but lacking a vendor email is excluded and counted in the
dedicated `skipped_missing_vendor_email` statistic, and the emitted
inquiries are exactly the recommended POs that do have an email
(`inquiry_count` matches); `build_vendor_briefs`, by contrast, drops such
POs silently (see the counterexample). -/
theorem missing_email_counted (analyzed : List AnalyzedPO) (today : Int) :
    (build_vendor_inquiries analyzed today).stats.skipped_missing_vendor_email =
      (analyzed.filter (fun p =>
        p.recommended_action == "inquire_vendor" &&
          !truthy p.vendor_email)).length ∧
    (build_vendor_inquiries analyzed today).inquiries.length =
      (analyzed.filter (fun p =>
        p.recommended_action == "inquire_vendor" &&
          truthy p.vendor_email)).length ∧
    (build_vendor_inquiries analyzed today).stats.inquiry_count =
      (build_vendor_inquiries analyzed today).inquiries.length := by
  obtain ⟨h1, h2⟩ := foldl_inquiry_counts analyzed
    ([], { as_of := today, inquiry_count := 0
           skipped_missing_vendor_email := 0, total_eligible_lines := 0
           due_inquiries := 0, past_due_inquiries := 0 })
  refine ⟨?_, ?_, rfl⟩
  · simpa using h1
  · simpa using h2

/-- C4 counterexample: a PO recommended for inquiry with no vendor email is
dropped by `build_vendor_briefs` without incrementing anything — the whole
output (briefs and every statistic) is identical to the output on the
input with that PO removed, and no skipped/missing-email counter exists in
its statistics. -/
theorem briefs_silent_drop_counterexample :
    (mkAnalyzed (some 7) "PO7" "Due" (some 3) none).recommended_action =
      "inquire_vendor" ∧
    truthy (mkAnalyzed (some 7) "PO7" "Due" (some 3) none).vendor_email =
      false ∧
    build_vendor_briefs [mkAnalyzed (some 7) "PO7" "Due" (some 3) none]
      50 20 50 = build_vendor_briefs [] 50 20 50 := by
  decide
theorem mem_insertS {α : Type} (le : α → α → Bool) (x a : α) (l : List α) :
    a ∈ insertS le x l ↔ a = x ∨ a ∈ l := by
  induction l with
  | nil => simp [insertS]
  | cons y ys ih =>
    simp only [insertS]
    split_ifs with h
    · simp [List.mem_cons]
    · simp only [List.mem_cons, ih]
      tauto

theorem pairwise_insertS {α : Type} (le : α → α → Bool)
    (htot : ∀ a b, (le a b || le b a) = true)
    (htrans : ∀ a b c, le a b = true → le b c = true → le a c = true)
    (x : α) (l : List α) (hl : l.Pairwise (fun a b => le a b = true)) :
    (insertS le x l).Pairwise (fun a b => le a b = true) := by
  induction l with
  | nil => simp [insertS]
  | cons y ys ih =>
    rcases List.pairwise_cons.mp hl with ⟨hy, hys⟩
    simp only [insertS]
    split_ifs with h
    · refine List.pairwise_cons.mpr ⟨?_, hl⟩
      intro b hb
      rcases List.mem_cons.mp hb with rfl | hb
      · exact h
      · exact htrans x y b h (hy b hb)
    · refine List.pairwise_cons.mpr ⟨?_, ih hys⟩
      intro b hb
      rcases (mem_insertS le x b ys).mp hb with hbx | hb
      · rw [hbx]
        have hf : le x y = false := by
          cases hO : le x y
          · rfl
          · exact absurd hO h
        have hor := htot x y
        rw [hf] at hor
        simpa using hor
      · exact hy b hb

theorem pairwise_sortS {α : Type} (le : α → α → Bool)
    (htot : ∀ a b, (le a b || le b a) = true)
    (htrans : ∀ a b c, le a b = true → le b c = true → le a c = true)
    (l : List α) :
    (sortS le l).Pairwise (fun a b => le a b = true) := by
  induction l with
  | nil => simp [sortS]
  | cons x xs ih => exact pairwise_insertS le htot htrans x (sortS le xs) ih

theorem strLeAux_total (a b : List Char) :
    (strLeAux a b || strLeAux b a) = true := by
  induction a generalizing b with
  | nil => simp [strLeAux]
  | cons x xs ih =>
    cases b with
    | nil => simp [strLeAux]
    | cons y ys =>
      simp only [strLeAux]
      by_cases h1 : x.toNat < y.toNat
      · simp [h1]
      · by_cases h2 : y.toNat < x.toNat
        · simp [h1, h2]
        · simpa [h1, h2] using ih ys

theorem strLeAux_trans (a b c : List Char)
    (h1 : strLeAux a b = true) (h2 : strLeAux b c = true) :
    strLeAux a c = true := by
  induction a generalizing b c with
  | nil => simp [strLeAux]
  | cons x xs ih =>
    cases b with
    | nil => simp [strLeAux] at h1
    | cons y ys =>
      cases c with
      | nil => simp [strLeAux] at h2
      | cons z zs =>
        simp only [strLeAux] at h1 h2 ⊢
        by_cases hxy : x.toNat < y.toNat
        · by_cases hyz : y.toNat < z.toNat
          · have hg : x.toNat < z.toNat := lt_trans hxy hyz
            simp [hg]
          · by_cases hzy : z.toNat < y.toNat
            · rw [if_neg hyz, if_pos hzy] at h2
              simp at h2
            · have hg : x.toNat < z.toNat := by omega
              simp [hg]
        · by_cases hyx : y.toNat < x.toNat
          · rw [if_neg hxy, if_pos hyx] at h1
            simp at h1
          · rw [if_neg hxy, if_neg hyx] at h1
            by_cases hyz : y.toNat < z.toNat
            · have hg : x.toNat < z.toNat := by omega
              simp [hg]
            · by_cases hzy : z.toNat < y.toNat
              · rw [if_neg hyz, if_pos hzy] at h2
                simp at h2
              · rw [if_neg hyz, if_neg hzy] at h2
                have g1 : ¬ x.toNat < z.toNat := by omega
                have g2 : ¬ z.toNat < x.toNat := by omega
                rw [if_neg g1, if_neg g2]
                exact ih ys zs h1 h2

theorem strLe_total (a b : String) : (strLe a b || strLe b a) = true :=
  strLeAux_total a.data b.data

theorem strLe_trans (a b c : String) (h1 : strLe a b = true)
    (h2 : strLe b c = true) : strLe a c = true :=
  strLeAux_trans a.data b.data c.data h1 h2

theorem sortKeyLE_total (p q : VendorPO) :
    (sortKeyLE p q || sortKeyLE q p) = true := by
  unfold sortKeyLE
  by_cases h1 : stateRank p.state < stateRank q.state
  · simp [h1]
  · by_cases h2 : stateRank q.state < stateRank p.state
    · simp [h1, h2]
    · simp only [if_neg h1, if_neg h2]
      rcases hp : p.earliest_due_date with _ | a <;>
        rcases hq : q.earliest_due_date with _ | b
      · simpa using strLe_total (p.po_number.getD "") (q.po_number.getD "")
      · simp
      · simp
      · by_cases hab : a < b
        · simp [hab]
        · by_cases hba : b < a
          · simp [hab, hba]
          · simpa [hab, hba] using
              strLe_total (p.po_number.getD "") (q.po_number.getD "")

theorem sortKeyLE_trans (p q r : VendorPO)
    (h1 : sortKeyLE p q = true) (h2 : sortKeyLE q r = true) :
    sortKeyLE p r = true := by
  unfold sortKeyLE at h1 h2 ⊢
  rcases hp : p.earliest_due_date with _ | a <;>
    rcases hq : q.earliest_due_date with _ | b <;>
      rcases hr : r.earliest_due_date with _ | c <;>
        simp only [hp, hq] at h1 <;> simp only [hq, hr] at h2 <;>
          simp only [hp, hr] <;>
          split_ifs at h1 h2 ⊢ <;>
            first
              | rfl
              | omega
              | exact Bool.noConfusion h1
              | exact Bool.noConfusion h2
              | exact strLe_trans _ _ _ h1 h2
              | simp_all

theorem vendorFinalize_mem (acc : List VendorInquiry × VendorStats)
    (kb : String × VendorBucket) (i : VendorInquiry)
    (h : i ∈ (vendorFinalize acc kb).1) :
    i ∈ acc.1 ∨ i.pos = sortS sortKeyLE kb.2.pos := by
  simp only [vendorFinalize, List.mem_append, List.mem_singleton] at h
  rcases h with h | h
  · exact Or.inl h
  · right
    rw [h]

theorem mem_vendorFinalize_fold (buckets : List (String × VendorBucket))
    (acc : List VendorInquiry × VendorStats) (inq : VendorInquiry)
    (h : inq ∈ (buckets.foldl vendorFinalize acc).1) :
    inq ∈ acc.1 ∨ ∃ kb ∈ buckets, inq.pos = sortS sortKeyLE kb.2.pos := by
  induction buckets generalizing acc with
  | nil => exact Or.inl h
  | cons kb rest ih =>
    rcases ih (vendorFinalize acc kb) h with hmem | ⟨kb2, hkb2, hpos⟩
    · rcases vendorFinalize_mem acc kb inq hmem with hin | hpos
      · exact Or.inl hin
      · exact Or.inr ⟨kb, List.mem_cons_self _ _, hpos⟩
    · exact Or.inr ⟨kb2, List.mem_cons_of_mem _ hkb2, hpos⟩

/-- C8: in every consolidated per-vendor inquiry, the POs are listed
sorted by the `_sort_key` order: state rank (`Past Due` 0, `Due` 1, other
2), then ascending earliest due date with missing dates last, then
ascending PO number (code-point lexicographic). -/
theorem consolidated_inquiry_sorted (analyzed : List AnalyzedPO)
    (today : Int) (inq : VendorInquiry)
    (h : inq ∈ (build_vendor_inquiries_by_vendor analyzed today).inquiries) :
    inq.pos.Pairwise (fun a b => sortKeyLE a b = true) := by
  have hmem : inq ∈ ((analyzed.foldl vCollectStep ([], 0)).1.foldl
      vendorFinalize
      ([], { as_of := today, vendor_inquiry_count := 0
             skipped_missing_vendor_email :=
               (analyzed.foldl vCollectStep ([], 0)).2
             total_pos_included := 0, total_lines_included := 0
             due_pos := 0, past_due_pos := 0 })).1 := h
  rcases mem_vendorFinalize_fold _ _ _ hmem with hin | ⟨kb, -, hpos⟩
  · simp at hin
  · rw [hpos]
    exact pairwise_sortS sortKeyLE sortKeyLE_total sortKeyLE_trans kb.2.pos

set_option maxRecDepth 4000 in
/-- Witness for `consolidated_inquiry_sorted`: the P10-style input
`a8input`; the single resulting brief lists
`Past Due (520), Past Due (601), Due (610)`. -/
theorem consolidated_inquiry_sorted_witness :
    ((build_vendor_inquiries_by_vendor a8input 0).inquiries.getD 0
      defaultVendorInquiry).pos.Pairwise (fun a b => sortKeyLE a b = true) :=
  consolidated_inquiry_sorted a8input 0 _ (by decide)
theorem mem_sortS {α : Type} (le : α → α → Bool) (a : α) (l : List α) :
    a ∈ sortS le l ↔ a ∈ l := by
  induction l with
  | nil => simp [sortS]
  | cons x xs ih => simp [sortS, mem_insertS, ih]

theorem lookupB_insert_self (mL : Nat) (e : String) (po : AnalyzedPO)
    (m : List (String × BriefBucket)) :
    lookupB e (insertBriefPO mL e po m) =
      some (bucketAdd mL po ((lookupB e m).getD (initBucket e po))) := by
  induction m with
  | nil => simp [insertBriefPO, lookupB]
  | cons kb rest ih =>
    obtain ⟨k, b⟩ := kb
    by_cases hk : k = e
    · subst hk
      simp [insertBriefPO, lookupB]
    · have hk' : (k == e) = false := by simpa using hk
      simp [insertBriefPO, lookupB, hk', ih]

theorem lookupB_insert_other (mL : Nat) (e e2 : String) (po : AnalyzedPO)
    (m : List (String × BriefBucket)) (hne : e2 ≠ e) :
    lookupB e2 (insertBriefPO mL e po m) = lookupB e2 m := by
  induction m with
  | nil =>
    have hf : (e == e2) = false := by
      simp only [beq_eq_false_iff_ne, ne_eq]
      exact fun h => hne h.symm
    simp [insertBriefPO, lookupB, hf]
  | cons kb rest ih =>
    obtain ⟨k, b⟩ := kb
    by_cases hk : k = e
    · subst hk
      have hk2 : (k == e2) = false := by
        simp only [beq_eq_false_iff_ne, ne_eq]
        exact fun h => hne h.symm
      simp [insertBriefPO, lookupB, hk2]
    · have hk' : (k == e) = false := by simpa using hk
      simp [insertBriefPO, lookupB, hk', ih]

theorem lookupB_fold (mL : Nat) (e : String) (analyzed : List AnalyzedPO)
    (m : List (String × BriefBucket)) :
    lookupB e (analyzed.foldl (briefStep mL) m) =
      bucketFold mL e (lookupB e m)
        (analyzed.filter (fun p =>
          briefQualifies p && (p.vendor_email.getD "" == e))) := by
  induction analyzed generalizing m with
  | nil => simp [bucketFold]
  | cons po rest ih =>
    simp only [List.foldl_cons, List.filter_cons]
    by_cases hq : briefQualifies po = true
    · by_cases hpe : po.vendor_email.getD "" = e
      · have hcond : (briefQualifies po &&
            (po.vendor_email.getD "" == e)) = true := by simp [hq, hpe]
        rw [hcond]
        have hstep : briefStep mL m po = insertBriefPO mL e po m := by
          simp [briefStep, hq, hpe]
        rw [hstep, ih, lookupB_insert_self]
        simp [bucketFold]
      · have hcond : (briefQualifies po &&
            (po.vendor_email.getD "" == e)) = false := by
          simp [hq]
          exact hpe
        rw [hcond]
        have hstep : briefStep mL m po =
            insertBriefPO mL (po.vendor_email.getD "") po m := by
          simp [briefStep, hq]
        rw [if_neg (by simp)]
        rw [hstep, ih, lookupB_insert_other]
        exact fun h => hpe h.symm
    · have hq' : briefQualifies po = false := by
        cases hQ : briefQualifies po
        · rfl
        · exact absurd hQ hq
      have hcond : (briefQualifies po &&
          (po.vendor_email.getD "" == e)) = false := by simp [hq']
      rw [hcond]
      have hstep : briefStep mL m po = m := by simp [briefStep, hq']
      rw [if_neg (by simp), hstep, ih]

theorem bucketFold_some (mL : Nat) (e : String) (l : List AnalyzedPO)
    (b0 : BriefBucket) :
    ∃ b2, bucketFold mL e (some b0) l = some b2 ∧
      b2.pos.length = b0.pos.length + l.length ∧
      (∀ x ∈ b2.po_ids, x ∈ b0.po_ids ∨ ∃ p ∈ l, x = p.po_id) := by
  induction l generalizing b0 with
  | nil => exact ⟨b0, rfl, by simp [bucketFold], fun x hx => Or.inl hx⟩
  | cons p rest ih =>
    obtain ⟨b2, h1, h2, h3⟩ := ih (bucketAdd mL p b0)
    refine ⟨b2, h1, ?_, ?_⟩
    · rw [h2]
      simp only [bucketAdd, List.length_append, List.length_cons,
        List.length_nil, List.length_cons]
      simp
      omega
    · intro x hx
      rcases h3 x hx with hin | ⟨p2, hp2, hxp⟩
      · have hsplit : x ∈ b0.po_ids ∨ x = p.po_id := by
          simp only [bucketAdd, setInsert] at hin
          split_ifs at hin with hmem
          · exact Or.inl hin
          · rcases List.mem_append.mp hin with h | h
            · exact Or.inl h
            · exact Or.inr (List.mem_singleton.mp h)
        rcases hsplit with h | h
        · exact Or.inl h
        · exact Or.inr ⟨p, List.mem_cons_self _ _, h⟩
      · exact Or.inr ⟨p2, List.mem_cons_of_mem _ hp2, hxp⟩

theorem bucketFold_none (mL : Nat) (e : String) (p0 : AnalyzedPO)
    (l : List AnalyzedPO) :
    ∃ b2, bucketFold mL e none (p0 :: l) = some b2 ∧
      b2.pos.length = l.length + 1 ∧
      (∀ x ∈ b2.po_ids, ∃ p ∈ p0 :: l, x = p.po_id) := by
  obtain ⟨b2, h1, h2, h3⟩ :=
    bucketFold_some mL e l (bucketAdd mL p0 (initBucket e p0))
  refine ⟨b2, h1, ?_, ?_⟩
  · rw [h2]
    simp [bucketAdd, initBucket]
    omega
  · intro x hx
    rcases h3 x hx with hin | ⟨p2, hp2, hxp⟩
    · have : x = p0.po_id := by
        simpa [bucketAdd, initBucket, setInsert] using hin
      exact ⟨p0, List.mem_cons_self _ _, this⟩
    · exact ⟨p2, List.mem_cons_of_mem _ hp2, hxp⟩

theorem keys_insertBriefPO (mL : Nat) (e : String) (po : AnalyzedPO)
    (m : List (String × BriefBucket)) :
    (insertBriefPO mL e po m).map Prod.fst =
      (if e ∈ m.map Prod.fst then m.map Prod.fst
       else m.map Prod.fst ++ [e]) := by
  induction m with
  | nil => simp [insertBriefPO]
  | cons kb rest ih =>
    obtain ⟨k, b⟩ := kb
    by_cases hk : k = e
    · subst hk
      simp [insertBriefPO]
    · have hk' : (k == e) = false := by simpa using hk
      simp only [insertBriefPO, hk', Bool.false_eq_true, if_false, ite_false,
        List.map_cons, ih, List.mem_cons]
      by_cases hmem : e ∈ rest.map Prod.fst
      · simp [hmem, hk]
      · simp only [hmem, if_false, ite_false, or_false]
        rw [if_neg (fun h => hk h.symm)]
        simp

theorem nodup_keys_fold (mL : Nat) (analyzed : List AnalyzedPO)
    (m : List (String × BriefBucket))
    (h : (m.map Prod.fst).Nodup) :
    ((analyzed.foldl (briefStep mL) m).map Prod.fst).Nodup := by
  induction analyzed generalizing m with
  | nil => exact h
  | cons po rest ih =>
    simp only [List.foldl_cons]
    apply ih
    by_cases hq : briefQualifies po = true
    · have hstep : briefStep mL m po =
          insertBriefPO mL (po.vendor_email.getD "") po m := by
        simp [briefStep, hq]
      rw [hstep, keys_insertBriefPO]
      split_ifs with hmem
      · exact h
      · exact List.Nodup.append h (List.nodup_singleton _)
          (List.disjoint_singleton.mpr hmem)
    · have hq' : briefQualifies po = false := by
        cases hQ : briefQualifies po
        · rfl
        · exact absurd hQ hq
      simpa [briefStep, hq'] using h

theorem mem_lookupB (m : List (String × BriefBucket)) (k : String)
    (b : BriefBucket) (hnd : (m.map Prod.fst).Nodup) (hmem : (k, b) ∈ m) :
    lookupB k m = some b := by
  induction m with
  | nil => cases hmem
  | cons kb rest ih =>
    obtain ⟨k2, b2⟩ := kb
    rw [List.map_cons] at hnd
    have hnd2 := List.nodup_cons.mp hnd
    rcases List.mem_cons.mp hmem with heq | hmem2
    · cases heq
      simp [lookupB]
    · have hk2 : (k2 == k) = false := by
        simp only [beq_eq_false_iff_ne, ne_eq]
        intro h
        subst h
        exact hnd2.1 (List.mem_map.mpr ⟨(k2, b), hmem2, rfl⟩)
      simp only [lookupB, hk2, Bool.false_eq_true, if_false, ite_false]
      exact ih hnd2.2 hmem2

theorem email_inv_insert (mL : Nat) (e : String) (po : AnalyzedPO)
    (m : List (String × BriefBucket))
    (h : ∀ kb ∈ m, (kb : String × BriefBucket).2.vendor_email = kb.1) :
    ∀ kb ∈ insertBriefPO mL e po m,
      (kb : String × BriefBucket).2.vendor_email = kb.1 := by
  induction m with
  | nil =>
    intro kb hkb
    simp only [insertBriefPO, List.mem_singleton] at hkb
    subst hkb
    simp [bucketAdd, initBucket]
  | cons kb0 rest ih =>
    obtain ⟨k, b⟩ := kb0
    intro kb hkb
    simp only [insertBriefPO] at hkb
    split_ifs at hkb with hk
    · rcases List.mem_cons.mp hkb with heq | hmem
      · subst heq
        have := h (k, b) (List.mem_cons_self _ _)
        simpa [bucketAdd] using this
      · exact h kb (List.mem_cons_of_mem _ hmem)
    · rcases List.mem_cons.mp hkb with heq | hmem
      · subst heq
        exact h (k, b) (List.mem_cons_self _ _)
      · exact ih (fun kb2 hkb2 => h kb2 (List.mem_cons_of_mem _ hkb2)) kb hmem

theorem email_inv_fold (mL : Nat) (analyzed : List AnalyzedPO)
    (m : List (String × BriefBucket))
    (h : ∀ kb ∈ m, (kb : String × BriefBucket).2.vendor_email = kb.1) :
    ∀ kb ∈ analyzed.foldl (briefStep mL) m,
      (kb : String × BriefBucket).2.vendor_email = kb.1 := by
  induction analyzed generalizing m with
  | nil => exact h
  | cons po rest ih =>
    simp only [List.foldl_cons]
    apply ih
    by_cases hq : briefQualifies po = true
    · have hstep : briefStep mL m po =
          insertBriefPO mL (po.vendor_email.getD "") po m := by
        simp [briefStep, hq]
      rw [hstep]
      exact email_inv_insert mL _ po m h
    · have hq' : briefQualifies po = false := by
        cases hQ : briefQualifies po
        · rfl
        · exact absurd hQ hq
      simpa [briefStep, hq'] using h

theorem finalizeBucket_email (mp : Nat) (b : BriefBucket) :
    (finalizeBucket mp b).vendor_email = b.vendor_email := by
  simp only [finalizeBucket]
  split_ifs <;> rfl

theorem finalizeBucket_over (mp : Nat) (b : BriefBucket)
    (hover : mp < b.pos.length) :
    (finalizeBucket mp b).pos.length = mp ∧
    (finalizeBucket mp b).po_ids.length ≤ mp ∧
    (∀ x ∈ (finalizeBucket mp b).po_ids, some x ∈ b.po_ids) := by
  simp only [finalizeBucket, if_pos hover]
  refine ⟨?_, ?_, ?_⟩
  · simp only [List.length_take]
    omega
  · simp only [List.length_take]
    exact min_le_left _ _
  · intro x hx
    have hx1 := List.mem_of_mem_take hx
    have hx2 := (mem_sortS (fun a b => decide (a ≤ b)) x
      (b.po_ids.filterMap id)).mp hx1
    rcases List.mem_filterMap.mp hx2 with ⟨a, ha, hax⟩
    cases a with
    | none => cases hax
    | some v =>
      obtain rfl : v = x := by simpa using hax
      exact ha

theorem briefs_mem (analyzed : List AnalyzedPO)
    (mV mp mL : Nat) (b : Brief)
    (hb : b ∈ (build_vendor_briefs analyzed mV mp mL).briefs) :
    ∃ kb ∈ analyzed.foldl (briefStep mL) [], b = finalizeBucket mp kb.2 := by
  simp only [build_vendor_briefs] at hb
  have hb2 := List.mem_of_mem_take hb
  rcases List.mem_map.mp hb2 with ⟨kb, hkb, heq⟩
  exact ⟨kb, hkb, heq.symm⟩

/-- C3 (amended): when a vendor has more qualifying POs than
`max_pos_per_vendor`, its brief retains exactly the cap's worth of PO
payloads and `po_ids` is truncated to at most the cap, and every retained
identifier is the id of SOME qualifying PO of that vendor — but, the
sorted `po_ids` list being truncated against the insertion-ordered `pos`
list, an identifier may refer to a qualifying PO that was excluded from
`pos` (see the counterexample). -/
theorem brief_caps (analyzed : List AnalyzedPO)
    (mV mp mL : Nat) (e : String) (b : Brief)
    (hb : b ∈ (build_vendor_briefs analyzed mV mp mL).briefs)
    (he : b.vendor_email = e)
    (hcount : mp < (analyzed.filter (fun p =>
      briefQualifies p && (p.vendor_email.getD "" == e))).length) :
    b.pos.length = mp ∧
    b.po_ids.length ≤ mp ∧
    (∀ x ∈ b.po_ids, some x ∈ (analyzed.filter (fun p =>
      briefQualifies p && (p.vendor_email.getD "" == e))).map
        (fun p => p.po_id)) := by
  obtain ⟨kb, hkb, hbe⟩ := briefs_mem analyzed mV mp mL b hb
  have hinv := email_inv_fold mL analyzed [] (by simp) kb hkb
  have hke : kb.1 = e := by
    rw [hbe, finalizeBucket_email] at he
    exact hinv.symm.trans he
  have hmemf : (e, kb.2) ∈ analyzed.foldl (briefStep mL) [] := by
    rw [← hke]
    exact hkb
  have hnd := nodup_keys_fold mL analyzed [] (by simp)
  have hlk := mem_lookupB _ e kb.2 hnd hmemf
  rw [lookupB_fold] at hlk
  cases hfil : (analyzed.filter (fun p =>
      briefQualifies p && (p.vendor_email.getD "" == e))) with
  | nil =>
    rw [hfil] at hcount
    simp at hcount
  | cons p0 rest =>
    rw [hfil] at hlk
    obtain ⟨b2, hb2, hlen, hids⟩ := bucketFold_none mL e p0 rest
    have hkb2 : kb.2 = b2 := by
      have : some b2 = some kb.2 := hb2.symm.trans hlk
      exact (Option.some.injEq _ _ ▸ this).symm
    have hover : mp < kb.2.pos.length := by
      rw [hkb2, hlen]
      rw [hfil] at hcount
      simp only [List.length_cons] at hcount
      omega
    obtain ⟨hl1, hl2, hl3⟩ := finalizeBucket_over mp kb.2 hover
    rw [hbe]
    refine ⟨hl1, hl2, ?_⟩
    intro x hx
    have hx2 := hl3 x hx
    rw [hkb2] at hx2
    rcases hids (some x) hx2 with ⟨p, hp, hpx⟩
    exact List.mem_map.mpr ⟨p, hp, hpx.symm⟩

/-- C3 counterexample: with `max_pos_per_vendor = 2` and qualifying POs
arriving in id order 3, 1, 2, the brief retains the payloads of PO3 and
PO1 but its identifier list is the sorted-then-truncated `[1, 2]` — id 2
belongs to PO2, which is NOT retained in `pos`: a dangling reference. -/
theorem brief_caps_counterexample :
    (mkAnalyzed (some 2) "PO2" "Due" (some 3) (some "v@x")).po_id = some 2 ∧
    (mkAnalyzed (some 2) "PO2" "Due" (some 3) (some "v@x")).po_number =
      some "PO2" ∧
    c3input.map (fun p => p.po_id) = [some 3, some 1, some 2] ∧
    ((build_vendor_briefs c3input 50 2 50).briefs.map
      (fun b => b.po_ids)) = [[1, 2]] ∧
    ((build_vendor_briefs c3input 50 2 50).briefs.map
      (fun b => b.pos.map (fun p => p.po_number))) =
      [[some "PO3", some "PO1"]] := by
  decide

/-- Witness for `brief_caps`: the `c3input` vendor with cap 2. -/
theorem brief_caps_witness :
    ((build_vendor_briefs c3input 50 2 50).briefs.getD 0 defaultBrief) ∈
      (build_vendor_briefs c3input 50 2 50).briefs ∧
    ((build_vendor_briefs c3input 50 2 50).briefs.getD 0
      defaultBrief).vendor_email = "v@x" ∧
    2 < (c3input.filter (fun p =>
      briefQualifies p && (p.vendor_email.getD "" == "v@x"))).length ∧
    (((build_vendor_briefs c3input 50 2 50).briefs.getD 0
        defaultBrief).pos.length = 2 ∧
     ((build_vendor_briefs c3input 50 2 50).briefs.getD 0
        defaultBrief).po_ids.length ≤ 2 ∧
     (∀ x ∈ ((build_vendor_briefs c3input 50 2 50).briefs.getD 0
        defaultBrief).po_ids,
       some x ∈ (c3input.filter (fun p =>
         briefQualifies p && (p.vendor_email.getD "" == "v@x"))).map
           (fun p => p.po_id))) :=
  ⟨by decide, by decide, by decide,
    brief_caps c3input 50 2 50 "v@x" _ (by decide) (by decide) (by decide)⟩
